import Mathlib

/-! HandMade_Website: the VendorHome handlers and the admin customers page.

A shallow embedding of

* `src/Components/VendorHome/VendorHome.jsx`: `fetchAverageRating`,
  `handleFavoriteClick`, `handleAddToCart`;
* `src/pages/Users.jsx`: the search effect, the pagination arithmetic and the
  page state of `UsersPage`.

JavaScript numbers are modelled by their exact values in `ℚ` (or `ℤ` for
counters); the sum and the quotient of `fetchAverageRating` round to the
nearest double.  A collection of the document
store is a map from document ids to optional documents, and every backend call
takes a boolean saying whether the backend answers it or rejects it.
-/

namespace VendorHome

/-! ## JavaScript numbers -/

/-- Rounding to the nearest integer, a tie going to the even one. -/
def roundHalfEven (x : ℚ) : ℤ :=
  if x - ⌊x⌋ < 1 / 2 then ⌊x⌋
  else if 1 / 2 < x - ⌊x⌋ then ⌊x⌋ + 1
  else if ⌊x⌋ % 2 = 0 then ⌊x⌋ else ⌊x⌋ + 1

/-- The binary exponent that fixes the spacing of the doubles around `q`:
`⌊log₂ |q|⌋`, and `-1022` for the subnormal range. -/
def binadeExponent (q : ℚ) : ℤ := max (Int.log 2 |q|) (-1022)

/-- The IEEE 754 binary64 number nearest to `q` (round to nearest, ties to
even), as an exact rational: doubles around `q` are the multiples of
`2 ^ (binadeExponent q - 52)`.  The results `Infinity` beyond the largest double
are outside the model. -/
def roundDouble (q : ℚ) : ℚ :=
  roundHalfEven (q / 2 ^ (binadeExponent q - 52)) * 2 ^ (binadeExponent q - 52)

/-- The sum `a + b` of two JavaScript numbers. -/
def jsAdd (a b : ℚ) : ℚ := roundDouble (a + b)

/-- The quotient `a / b` of two JavaScript numbers, `b` not `0`. -/
def jsDiv (a b : ℚ) : ℚ := roundDouble (a / b)

/-! ## fetchAverageRating -/

/-- One document of the `Feedbacks` collection as the scan reads it: only
`data.rating` is inspected; `rating = none` is a document without that field. -/
structure FeedbackDoc where
  rating : Option ℚ
deriving DecidableEq

/-- JavaScript truthiness of `data.rating`: a missing field and the number `0`
are falsy, every other number is truthy. -/
def ratingTruthy : Option ℚ → Bool
  | none => false
  | some r => decide (r ≠ 0)

/-- What `averageRatings[productId]` can hold after `fetchAverageRating`:
the number literal of the `count > 0 ? … : 0` expression, or the string made by
`toFixed(1)`.  A `toFixed(1)` string is kept as its sign and its digits read as
a number of tenths (`"4.3"` is `fixed false 43`); for magnitudes of at least
`10^21` `toFixed` falls back to the plain number-to-string conversion, kept as
`plain x`. -/
inductive RatingValue where
  | number (x : ℚ)
  | fixed (negative : Bool) (tenths : ℕ)
  | plain (x : ℚ)
deriving DecidableEq

/-- `Number.prototype.toFixed(1)` on the exact value `x` of a double: for `x < 0`
the sign is split off; at `10^21` and above the plain conversion is used;
otherwise the integer `n` with `n / 10` nearest to `x` is taken, the larger one
on a tie. -/
def toFixed1 (x : ℚ) : RatingValue :=
  let negative := decide (x < 0)
  let a := if x < 0 then -x else x
  if (10 : ℚ) ^ 21 ≤ a then .plain x
  else .fixed negative (Int.toNat ⌊a * 10 + 1 / 2⌋)

/-- The text of a stored value as the page prints it. -/
def RatingValue.render : RatingValue → String
  | .number x => toString x
  | .fixed negative tenths =>
      (if negative then "-" else "") ++ toString (tenths / 10) ++ "." ++ toString (tenths % 10)
  | .plain x => toString x

/-- The number a stored value denotes. -/
def RatingValue.value : RatingValue → ℚ
  | .number x => x
  | .fixed negative tenths => (if negative then -1 else 1) * ((tenths : ℚ) / 10)
  | .plain x => x

/-- The callback of `snapshot.forEach` on the accumulators `(total, count)`:
`if (data.rating) { total += data.rating; count++; }`. -/
def scanStep (acc : ℚ × ℕ) (d : FeedbackDoc) : ℚ × ℕ :=
  if ratingTruthy d.rating then
    match d.rating with
    | some r => (jsAdd acc.1 r, acc.2 + 1)
    | none => acc
  else acc

/-- The `snapshot.forEach` loop from `total = 0`, `count = 0`. -/
def scanRatings (docs : List FeedbackDoc) : ℚ × ℕ :=
  docs.foldl scanStep (0, 0)

/-- The React state `averageRatings`: an object keyed by product id. -/
abbrev AverageRatings := String → Option RatingValue

/-- The object spread `{ ...prev, [key]: v }`. -/
def setKey {β : Type} (prev : String → Option β) (key : String) (v : β) : String → Option β :=
  fun k => if k = key then some v else prev k

/-- `fetchAverageRating(productId)`: `snapshot` is what `getDocs(q)` answered,
`none` when the call was rejected (the `catch` only logs). -/
def fetchAverageRating (productId : String) (snapshot : Option (List FeedbackDoc))
    (prev : AverageRatings) : AverageRatings :=
  match snapshot with
  | none => prev
  | some docs =>
      let (total, count) := scanRatings docs
      setKey prev productId (if count > 0 then toFixed1 (jsDiv total count) else .number 0)

/-! ## The document store, the page state and the handler monad -/

/-- The signed-in user, `auth.currentUser`; only `uid` is read. -/
structure User where
  uid : String
deriving DecidableEq

/-- The fields of a `Products` document that the handlers read.  A missing
`title`, `imgURL` or `price` is `none`. -/
structure ProductData where
  title : Option String
  imgURL : Option String
  price : Option ℚ
  stock : ℤ
deriving DecidableEq

/-- A product of the page state, `{ id: doc.id, ...doc.data() }`. -/
structure Product where
  id : String
  data : ProductData
deriving DecidableEq

/-- A document of the `favorite` collection as `handleFavoriteClick` writes it. -/
structure FavDoc where
  userId : String
  productId : String
  title : Option String
  imgURL : Option String
  price : Option ℚ
deriving DecidableEq

/-- A document of the `Cart` collection.  `updatedAt` is the server timestamp
of the last `updateDoc`, absent on a document made by `setDoc`. -/
structure CartDoc where
  userId : String
  productId : String
  quantity : ℤ
  title : String
  price : ℚ
  imgURL : String
  updatedAt : Option ℕ
deriving DecidableEq

/-- The three collections the handlers touch, each a map from document id to
document. -/
structure Db where
  favorite : String → Option FavDoc
  cart : String → Option CartDoc
  products : String → Option ProductData

/-- A backend call, by kind, collection and document id. -/
inductive Call where
  | getDoc (coll : String) (id : String)
  | setDoc (coll : String) (id : String)
  | updateDoc (coll : String) (id : String)
  | deleteDoc (coll : String) (id : String)
deriving DecidableEq

/-- A write is every call but `getDoc`. -/
def Call.isWrite : Call → Bool
  | .getDoc _ _ => false
  | _ => true

/-- A `react-hot-toast` notification. -/
inductive Toast where
  | error (message : String)
  | success (message : String)
deriving DecidableEq

/-- The React state `favorites`: an object keyed by product id. -/
abbrev Favorites := String → Option Bool

/-- JavaScript truthiness of `favorites[id]`: `undefined` and `false` are falsy. -/
def favTruthy : Option Bool → Bool
  | some true => true
  | _ => false

/-- Everything a handler can read or change: the store, the live `favorites`
state, and the logs of notifications, of backend calls (each with whether the
backend accepted it) and of `console.error` lines; `now` is the server clock
used by `serverTimestamp()`. -/
structure World where
  db : Db
  favorites : Favorites
  toasts : List Toast
  calls : List (Call × Bool)
  console : List String
  now : ℕ

/-- A handler body: it runs on a world and either completes or throws, and in
both cases leaves a world behind. -/
def Handler (α : Type) : Type := World → Except String α × World

/-- Completing with a value. -/
def Handler.pure {α : Type} (a : α) : Handler α := fun w => (.ok a, w)

/-- Sequencing: a throw skips the rest. -/
def Handler.bind {α β : Type} (m : Handler α) (f : α → Handler β) : Handler β := fun w =>
  match m w with
  | (.ok a, w1) => f a w1
  | (.error e, w1) => (.error e, w1)

instance : Monad Handler where
  pure := Handler.pure
  bind := Handler.bind

/-- The statement `try { body } catch (e) { handler }`. -/
def tryCatch {α : Type} (body : Handler α) (handler : String → Handler α) : Handler α := fun w =>
  match body w with
  | (.ok a, w1) => (.ok a, w1)
  | (.error e, w1) => handler e w1

/-- `await Promise.all([a, b])`: both calls are started; the result is rejected
when either is. -/
def promiseAll2 {α β : Type} (a : Handler α) (b : Handler β) : Handler (α × β) := fun w =>
  match a w with
  | (ra, w1) =>
    match b w1 with
    | (rb, w2) =>
      match ra, rb with
      | .ok x, .ok y => (.ok (x, y), w2)
      | .error e, _ => (.error e, w2)
      | .ok _, .error e => (.error e, w2)

/-- `toast.error(message)`. -/
def toastError (message : String) : Handler Unit := fun w =>
  (.ok (), { w with toasts := w.toasts ++ [Toast.error message] })

/-- `toast.success(message)`. -/
def toastSuccess (message : String) : Handler Unit := fun w =>
  (.ok (), { w with toasts := w.toasts ++ [Toast.success message] })

/-- `console.error(message, …)`. -/
def consoleError (message : String) : Handler Unit := fun w =>
  (.ok (), { w with console := w.console ++ [message] })

/-- `setFavorites(updater)`. -/
def setFavorites (updater : Favorites → Favorites) : Handler Unit := fun w =>
  (.ok (), { w with favorites := updater w.favorites })

/-- Records a backend call and its outcome in the log. -/
def World.logCall (w : World) (c : Call) (accepted : Bool) : World :=
  { w with calls := w.calls ++ [(c, accepted)] }

/-- The document id built by the template literal `${uid}_${id}`. -/
def docId (uid id : String) : String := uid ++ "_" ++ id

/-- `deleteDoc(doc(db, "favorite", id))`; `ok` says whether the backend accepts. -/
def deleteFavorite (ok : Bool) (id : String) : Handler Unit := fun w =>
  let w1 := w.logCall (.deleteDoc "favorite" id) ok
  if ok then
    (.ok (), { w1 with db := { w1.db with favorite := fun k => if k = id then none else w1.db.favorite k } })
  else (.error "deleteDoc rejected", w1)

/-- `setDoc(doc(db, "favorite", id), d)`. -/
def setFavorite (ok : Bool) (id : String) (d : FavDoc) : Handler Unit := fun w =>
  let w1 := w.logCall (.setDoc "favorite" id) ok
  if ok then (.ok (), { w1 with db := { w1.db with favorite := setKey w1.db.favorite id d } })
  else (.error "setDoc rejected", w1)

/-! ## handleFavoriteClick -/

/-- `handleFavoriteClick(product)`.  `user` is `auth.currentUser`, `favorites`
is the value of the state variable captured by the handler when the page was
rendered, and `writeOk` says whether the one backend write is accepted. -/
def handleFavoriteClick (writeOk : Bool) (user : Option User) (favorites : Favorites)
    (product : Product) : Handler Unit :=
  match user with
  | none => toastError "You must be logged in to manage favorites"
  | some user =>
    let favRef := docId user.uid product.id
    tryCatch
      (do
        setFavorites (fun prev => setKey prev product.id (!favTruthy (prev product.id)))
        if favTruthy (favorites product.id) then do
          deleteFavorite writeOk favRef
          toastSuccess "Removed from favorites!"
        else do
          setFavorite writeOk favRef
            { userId := user.uid
              productId := product.id
              title := product.data.title
              imgURL := product.data.imgURL
              price := product.data.price }
          toastSuccess "Added to favorites!")
      (fun _ => do
        consoleError "Failed to toggle favorite:"
        toastError "Something went wrong."
        setFavorites (fun prev => setKey prev product.id (!favTruthy (prev product.id))))

/-! ## handleAddToCart -/

/-- Which of the four backend calls of one `handleAddToCart` run the backend
answers: the two reads of `Promise.all`, the write to the cart document and the
write to the product document. -/
structure Outcomes where
  getCart : Bool
  getProduct : Bool
  cartWrite : Bool
  stockWrite : Bool
deriving DecidableEq

/-- `getDoc(doc(db, "Cart", id))`: the snapshot is `none` when the document
does not exist. -/
def getCartDoc (ok : Bool) (id : String) : Handler (Option CartDoc) := fun w =>
  let w1 := w.logCall (.getDoc "Cart" id) ok
  if ok then (.ok (w.db.cart id), w1) else (.error "getDoc rejected", w1)

/-- `getDoc(doc(db, "Products", id))`. -/
def getProductDoc (ok : Bool) (id : String) : Handler (Option ProductData) := fun w =>
  let w1 := w.logCall (.getDoc "Products" id) ok
  if ok then (.ok (w.db.products id), w1) else (.error "getDoc rejected", w1)

/-- `updateDoc(cartRef, { quantity: increment(1), updatedAt: serverTimestamp() })`.
The backend rejects `updateDoc` on a document that does not exist. -/
def updateCartQuantity (ok : Bool) (id : String) : Handler Unit := fun w =>
  match w.db.cart id with
  | some d =>
    let w1 := w.logCall (.updateDoc "Cart" id) ok
    if ok then
      (.ok (),
        { w1 with
          db := { w1.db with
                  cart := setKey w1.db.cart id
                    { d with quantity := d.quantity + 1, updatedAt := some w.now } } })
    else (.error "updateDoc rejected", w1)
  | none => (.error "updateDoc: no document to update", w.logCall (.updateDoc "Cart" id) false)

/-- `setDoc(cartRef, d)`. -/
def setCartDoc (ok : Bool) (id : String) (d : CartDoc) : Handler Unit := fun w =>
  let w1 := w.logCall (.setDoc "Cart" id) ok
  if ok then (.ok (), { w1 with db := { w1.db with cart := setKey w1.db.cart id d } })
  else (.error "setDoc rejected", w1)

/-- `updateDoc(productRef, { stock: increment(-1) })`. -/
def decrementStock (ok : Bool) (id : String) : Handler Unit := fun w =>
  match w.db.products id with
  | some p =>
    let w1 := w.logCall (.updateDoc "Products" id) ok
    if ok then
      (.ok (),
        { w1 with
          db := { w1.db with products := setKey w1.db.products id { p with stock := p.stock + (-1) } } })
    else (.error "updateDoc rejected", w1)
  | none => (.error "updateDoc: no document to update", w.logCall (.updateDoc "Products" id) false)

/-- The operator `a || b` when `b` is always defined: `a` if it is present and
truthy, else `b`. -/
def jsOr {α : Type} (truthy : α → Bool) (a : Option α) (b : α) : α :=
  match a with
  | some x => if truthy x then x else b
  | none => b

/-- Truthiness of a string: all but the empty string. -/
def strTruthy (s : String) : Bool := decide (s ≠ "")

/-- Truthiness of a number: all but `0`. -/
def numTruthy (x : ℚ) : Bool := decide (x ≠ 0)

/-- The document `setDoc` writes for a product not yet in the cart. -/
def newCartDoc (user : User) (id : String) (product : ProductData)
    (productData : Option Product) : CartDoc :=
  { userId := user.uid
    productId := id
    quantity := 1
    title := jsOr strTruthy product.title
      (jsOr strTruthy (productData.bind (fun p => p.data.title)) "")
    price := jsOr numTruthy product.price
      (jsOr numTruthy (productData.bind (fun p => p.data.price)) 0)
    imgURL := jsOr strTruthy product.imgURL
      (jsOr strTruthy (productData.bind (fun p => p.data.imgURL)) "")
    updatedAt := none }

/-- `handleAddToCart(id, productData)`.  `user` is `auth.currentUser` and `o`
says which backend calls are answered. -/
def handleAddToCart (o : Outcomes) (user : Option User) (id : String)
    (productData : Option Product) : Handler Unit :=
  match user with
  | none => toastError "You must be logged in to add to cart"
  | some user =>
    let cartId := docId user.uid id
    tryCatch
      (do
        let (cartSnap, productSnap) ←
          promiseAll2 (getCartDoc o.getCart cartId) (getProductDoc o.getProduct id)
        match productSnap with
        | none => toastError "Product no longer exists."
        | some product =>
          if product.stock = 0 then toastError "Out of stock"
          else
            match cartSnap with
            | some _ => do
              updateCartQuantity o.cartWrite cartId
              decrementStock o.stockWrite id
              toastSuccess "Quantity increased in cart"
            | none => do
              setCartDoc o.cartWrite cartId (newCartDoc user id product productData)
              decrementStock o.stockWrite id
              toastSuccess "Added to cart")
      (fun _ => do
        consoleError "Add to cart error:"
        toastError "Failed to add to cart")

/-- The cart collection after the cart write of `handleAddToCart` was accepted. -/
def cartAfterWrite (user : User) (id : String) (productData : Option Product) (w : World)
    (p : ProductData) : String → Option CartDoc :=
  match w.db.cart (docId user.uid id) with
  | some c =>
      setKey w.db.cart (docId user.uid id)
        { c with quantity := c.quantity + 1, updatedAt := some w.now }
  | none => setKey w.db.cart (docId user.uid id) (newCartDoc user id p productData)

/-- Every backend call answered. -/
def allOk : Outcomes := { getCart := true, getProduct := true, cartWrite := true, stockWrite := true }

/-! ## handleAddToCart between its awaits -/

/-- Where one run of `handleAddToCart` by a logged-in user stands: before the
reads; after the reads with the guards passed, holding the two snapshots; after
the cart write, remembering whether the cart document existed; finished. -/
inductive CartRun where
  | start
  | afterReads (cartSnap : Option CartDoc) (product : ProductData)
  | afterCartWrite (existed : Bool)
  | done
deriving DecidableEq

/-- The `catch` block of `handleAddToCart`, ending the run. -/
def cartCatch : String → Handler CartRun := fun _ => do
  consoleError "Add to cart error:"
  toastError "Failed to add to cart"
  pure CartRun.done

/-- One step of a run: the code from one `await` to the next, together with the
backend call that the `await` waits for. -/
def CartRun.step (o : Outcomes) (user : User) (id : String) (productData : Option Product) :
    CartRun → Handler CartRun
  | .start =>
    tryCatch
      (do
        let (cartSnap, productSnap) ←
          promiseAll2 (getCartDoc o.getCart (docId user.uid id)) (getProductDoc o.getProduct id)
        match productSnap with
        | none => do
          toastError "Product no longer exists."
          pure CartRun.done
        | some product =>
          if product.stock = 0 then do
            toastError "Out of stock"
            pure CartRun.done
          else pure (CartRun.afterReads cartSnap product))
      cartCatch
  | .afterReads cartSnap product =>
    tryCatch
      (match cartSnap with
        | some _ => do
          updateCartQuantity o.cartWrite (docId user.uid id)
          pure (CartRun.afterCartWrite true)
        | none => do
          setCartDoc o.cartWrite (docId user.uid id) (newCartDoc user id product productData)
          pure (CartRun.afterCartWrite false))
      cartCatch
  | .afterCartWrite existed =>
    tryCatch
      (do
        decrementStock o.stockWrite id
        toastSuccess (if existed then "Quantity increased in cart" else "Added to cart")
        pure CartRun.done)
      cartCatch
  | .done => pure CartRun.done

/-- A run taken through `n` steps without anything else touching the world. -/
def CartRun.steps (o : Outcomes) (user : User) (id : String) (productData : Option Product) :
    ℕ → CartRun → World → CartRun × World
  | 0, r, w => (r, w)
  | n + 1, r, w =>
    match CartRun.step o user id productData r w with
    | (.ok r1, w1) => CartRun.steps o user id productData n r1 w1
    | (.error _, w1) => (CartRun.done, w1)

/-- The fixed inputs of one run. -/
structure RunInput where
  outcomes : Outcomes
  user : User
  id : String
  productData : Option Product

/-- Two runs of `handleAddToCart` over one store. -/
structure TwoRuns where
  world : World
  runA : CartRun
  runB : CartRun

/-- Which run moves next. -/
inductive Turn where
  | a
  | b
deriving DecidableEq

/-- The run named by the turn takes one step; the other run waits. -/
def TwoRuns.step (inA inB : RunInput) (s : TwoRuns) (t : Turn) : TwoRuns :=
  match t with
  | .a =>
    match CartRun.step inA.outcomes inA.user inA.id inA.productData s.runA s.world with
    | (.ok r, w) => { s with world := w, runA := r }
    | (.error _, w) => { s with world := w, runA := CartRun.done }
  | .b =>
    match CartRun.step inB.outcomes inB.user inB.id inB.productData s.runB s.world with
    | (.ok r, w) => { s with world := w, runB := r }
    | (.error _, w) => { s with world := w, runB := CartRun.done }

/-- The two runs taken through a schedule of turns. -/
def TwoRuns.exec (inA inB : RunInput) (s : TwoRuns) (turns : List Turn) : TwoRuns :=
  turns.foldl (TwoRuns.step inA inB) s

/-! ### Sample inputs -/

/-- Every call answered but the read of the product document. -/
def productReadRejected : Outcomes := { allOk with getProduct := false }

/-- Every call answered but the read of the cart document. -/
def cartReadRejected : Outcomes := { allOk with getCart := false }

/-- An empty store. -/
def emptyDb : Db :=
  { favorite := fun _ => none, cart := fun _ => none, products := fun _ => none }

/-- A sample product document: a vase with one piece in stock. -/
def vaseData : ProductData :=
  { title := some "Vase", imgURL := some "vase.png", price := some 120, stock := 1 }

/-- The sample product as the page holds it. -/
def vase : Product := { id := "p1", data := vaseData }

/-- A sample signed-in user. -/
def alice : User := { uid := "u1" }

/-- A world whose store holds the vase, with nothing marked favorite. -/
def shopWorld : World :=
  { db := { emptyDb with products := fun k => if k = "p1" then some vaseData else none }
    favorites := fun _ => none
    toasts := []
    calls := []
    console := []
    now := 0 }

/-- The same world with the vase shown as a favorite of alice. -/
def favWorld : World :=
  { shopWorld with
    db := { shopWorld.db with
            favorite := fun k =>
              if k = "u1_p1" then
                some { userId := "u1", productId := "p1", title := some "Vase",
                       imgURL := some "vase.png", price := some 120 }
              else none }
    favorites := fun k => if k = "p1" then some true else none }

/-- Every call answered but the write to the product document. -/
def stockWriteRejected : Outcomes := { allOk with stockWrite := false }

/-- The world whose store holds the vase, with one vase already in alice's cart. -/
def cartWorld : World :=
  { shopWorld with
    db := { shopWorld.db with
            cart := fun k =>
              if k = "u1_p1" then
                some { userId := "u1", productId := "p1", quantity := 1, title := "Vase",
                       price := 120, imgURL := "vase.png", updatedAt := none }
              else none } }

/-- A second sample user. -/
def bob : User := { uid := "u2" }

/-- Alice adds the vase to her cart, every call answered. -/
def aliceAddsVase : RunInput :=
  { outcomes := allOk, user := alice, id := "p1", productData := some vase }

/-- Bob adds the vase to his cart, every call answered. -/
def bobAddsVase : RunInput :=
  { outcomes := allOk, user := bob, id := "p1", productData := some vase }

/-- Both runs about to start on the world whose store holds one vase. -/
def raceStart : TwoRuns := { world := shopWorld, runA := CartRun.start, runB := CartRun.start }

/-! ### Specification side of the average -/

/-- The rating values the documents carry, in document order. -/
def carriedRatings (docs : List FeedbackDoc) : List ℚ :=
  docs.filterMap (fun d => d.rating)

/-- The arithmetic mean of the rating values: their sum over the number of
documents that carry a rating. -/
def meanOfRatings (docs : List FeedbackDoc) : ℚ :=
  (carriedRatings docs).sum / (carriedRatings docs).length

/-- The rating values that are not `0`, in document order. -/
def nonZeroRatings (docs : List FeedbackDoc) : List ℚ :=
  (carriedRatings docs).filter (fun r => decide (r ≠ 0))

/-- The sum of a list of numbers taken left to right in double precision. -/
def doubleSum (l : List ℚ) : ℚ :=
  l.foldl jsAdd 0

/-- The number `r` is `q` rounded to double precision: `r` is a multiple of the
spacing `2 ^ (e - 52)` of the doubles in the binade of `q` (the subnormal
spacing below `2 ^ (-1022)`), no multiple is nearer to `q`, and on a tie `r` is
the even multiple. -/
def RoundsTo (q r : ℚ) : Prop :=
  ∃ e m : ℤ,
    ((-1022 ≤ e ∧ (2 : ℚ) ^ e ≤ |q| ∧ |q| < (2 : ℚ) ^ (e + 1))
        ∨ (e = -1022 ∧ |q| < (2 : ℚ) ^ (-1022 : ℤ)))
      ∧ r = m * (2 : ℚ) ^ (e - 52)
      ∧ |r - q| ≤ (2 : ℚ) ^ (e - 53)
      ∧ (|r - q| = (2 : ℚ) ^ (e - 53) → Even m)

/-- The number `s` is what adding the list to `a`, left to right and rounding
after each addition, arrives at. -/
inductive DoubleSumFrom : ℚ → List ℚ → ℚ → Prop where
  | nil (a : ℚ) : DoubleSumFrom a [] a
  | cons (a r a1 s : ℚ) (l : List ℚ) :
      RoundsTo (a + r) a1 → DoubleSumFrom a1 l s → DoubleSumFrom a (r :: l) s

/-- The value `v` is the text `toFixed(1)` makes of `x`: below `10^21` the sign
of `x` and the number of tenths nearest to `|x|`, the larger one on a tie; from
`10^21` on the plain text of `x`. -/
def FixedOf (x : ℚ) (v : RatingValue) : Prop :=
  match v with
  | .fixed negative tenths =>
      (negative = true ↔ x < 0) ∧ |x| < (10 : ℚ) ^ 21
        ∧ -(1 / 20) < (tenths : ℚ) / 10 - |x| ∧ (tenths : ℚ) / 10 - |x| ≤ 1 / 20
  | .plain y => y = x ∧ (10 : ℚ) ^ 21 ≤ |x|
  | .number _ => False

/-- Two feedback documents, with the ratings `0` and `4`. -/
def zeroAndFour : List FeedbackDoc := [{ rating := some 0 }, { rating := some 4 }]

/-- Nineteen ratings of `2` and one of `3`: their mean is `2.05`. -/
def nineteenTwos : List FeedbackDoc :=
  List.replicate 19 { rating := some 2 } ++ [{ rating := some 3 }]

end VendorHome

namespace UsersPage

/-! ## The admin customers page (`UsersPage`) -/

/-- A user row, `{ id: doc.id, ...doc.data() }`; a field the document lacks is
`none`. -/
structure UserRecord where
  id : String
  displayName : Option String
  email : Option String
  phone : Option String
  role : Option String
deriving DecidableEq

/-- The characters `String.prototype.trim` strips: the ECMAScript white space
and line terminator code points. -/
def isWhiteSpace (c : Char) : Bool :=
  let n := c.toNat
  n == 0x9 || n == 0xA || n == 0xB || n == 0xC || n == 0xD || n == 0x20 || n == 0xA0
    || n == 0x1680 || (0x2000 ≤ n && n ≤ 0x200A) || n == 0x2028 || n == 0x2029
    || n == 0x202F || n == 0x205F || n == 0x3000 || n == 0xFEFF

/-- `s.trim()`: white space removed from both ends. -/
def trim (s : String) : String :=
  ⟨((s.data.dropWhile isWhiteSpace).reverse.dropWhile isWhiteSpace).reverse⟩

/-- `s.includes(term)`: does `term` start at some position of `s`. -/
def includes (s term : String) : Bool :=
  s.data.tails.any (fun rest => term.data.isPrefixOf rest)

/-- The callback of `users.filter` in the search effect:
`user.displayName?.toLowerCase().includes(term) || user.email?.toLowerCase().includes(term)`.
`toLowerCase` stands for `String.prototype.toLowerCase`. -/
def matchesSearch (toLowerCase : String → String) (term : String) (user : UserRecord) : Bool :=
  (match user.displayName with
    | some name => includes (toLowerCase name) term
    | none => false)
  ||
  (match user.email with
    | some email => includes (toLowerCase email) term
    | none => false)

/-- The state variables of `UsersPage` that the list and the pagination use. -/
structure PageState where
  users : List UserRecord
  filteredUsers : List UserRecord
  searchTerm : String
  currentPage : ℤ
  loading : Bool

/-- The initial values given to `useState`. -/
def PageState.initial : PageState :=
  { users := [], filteredUsers := [], searchTerm := "", currentPage := 1, loading := true }

/-- The effect on `[searchTerm, users]`: filter, then reset to page 1. -/
def searchEffect (toLowerCase : String → String) (s : PageState) : PageState :=
  let term := toLowerCase (trim s.searchTerm)
  let s1 :=
    if term = "" then { s with filteredUsers := s.users }
    else { s with filteredUsers := s.users.filter (matchesSearch toLowerCase term) }
  { s1 with currentPage := 1 }

/-- The constant `usersPerPage`. -/
def usersPerPage : ℕ := 10

/-- `Math.ceil(filteredUsers.length / usersPerPage)`. -/
def totalPages (filteredUsers : List UserRecord) : ℕ :=
  ⌈(filteredUsers.length : ℚ) / (usersPerPage : ℚ)⌉₊

/-- `Array.prototype.slice(start, end)`: a negative index counts from the end,
and both indices are clamped to the array. -/
def slice {α : Type} (l : List α) (start stop : ℤ) : List α :=
  let len : ℤ := l.length
  let k : ℤ := if start < 0 then max (len + start) 0 else min start len
  let final : ℤ := if stop < 0 then max (len + stop) 0 else min stop len
  (l.drop k.toNat).take (final - k).toNat

/-- `indexOfLast = currentPage * usersPerPage`. -/
def indexOfLast (currentPage : ℤ) : ℤ := currentPage * usersPerPage

/-- `indexOfFirst = indexOfLast - usersPerPage`. -/
def indexOfFirst (currentPage : ℤ) : ℤ := indexOfLast currentPage - usersPerPage

/-- `currentUsers = filteredUsers.slice(indexOfFirst, indexOfLast)`. -/
def currentUsers (filteredUsers : List UserRecord) (currentPage : ℤ) : List UserRecord :=
  slice filteredUsers (indexOfFirst currentPage) (indexOfLast currentPage)

/-- The number shown in the first column, `(currentPage - 1) * usersPerPage + index + 1`. -/
def rowNumber (currentPage : ℤ) (index : ℕ) : ℤ :=
  (currentPage - 1) * usersPerPage + index + 1

/-- What can happen to the page: the fetch of the `Users` collection answers
with documents or is rejected, the search box is edited, or the pagination
button with index `idx` is clicked. -/
inductive Event where
  | fetchDone (docs : List UserRecord)
  | fetchFailed
  | searchInput (value : String)
  | pageClick (idx : ℕ)

/-- The page after an event, effects included; `none` when the event cannot
happen in that state (the button is not on the page). -/
def PageState.next (toLowerCase : String → String) (s : PageState) : Event → Option PageState
  | .fetchDone docs =>
    let userList := docs.filter (fun user => user.role == some "customer")
    some (searchEffect toLowerCase
      { s with users := userList, filteredUsers := userList, loading := false })
  | .fetchFailed => some { s with loading := false }
  | .searchInput value =>
    if value = s.searchTerm then some s
    else some (searchEffect toLowerCase { s with searchTerm := value })
  | .pageClick idx =>
    if !s.loading && decide (totalPages s.filteredUsers > 1) && decide (idx < totalPages s.filteredUsers)
    then some { s with currentPage := (idx : ℤ) + 1 }
    else none

/-- The states the page can be in: the initial one and every successor. -/
inductive Reachable (toLowerCase : String → String) : PageState → Prop where
  | initial : Reachable toLowerCase PageState.initial
  | next (s s1 : PageState) (e : Event) :
      Reachable toLowerCase s → PageState.next toLowerCase s e = some s1 → Reachable toLowerCase s1

/-- The page-range invariant: `1 ≤ currentPage ≤ max(1, totalPages)`. -/
def PageInRange (s : PageState) : Prop :=
  1 ≤ s.currentPage ∧ s.currentPage ≤ max 1 (totalPages s.filteredUsers : ℤ)

/-! ### Specification side of the search -/

/-- The text `t` occurs in `s` as a run of consecutive characters. -/
def containsText (s t : String) : Prop :=
  ∃ before after : List Char, s.data = before ++ t.data ++ after

instance (s t : String) : Decidable (containsText s t) :=
  decidable_of_iff (t.data <:+: s.data)
    ⟨fun ⟨a, b, h⟩ => ⟨a, b, h.symm⟩, fun ⟨a, b, h⟩ => ⟨a, b, h.symm⟩⟩

/-- Deciding a property of the value of an optional field. -/
instance decExistsSome {α : Type} (o : Option α) (P : α → Prop) [DecidablePred P] :
    Decidable (∃ a, o = some a ∧ P a) :=
  match o with
  | none => isFalse (by simp)
  | some a => decidable_of_iff (P a) (by simp)

/-- The white space of the specification, as a table of code points: tab, line
feed, vertical tab, form feed, carriage return, space, no-break space, the
Unicode space separators, line and paragraph separator, and the byte order
mark. -/
def whiteSpaceCodes : List ℕ :=
  [0x9, 0xA, 0xB, 0xC, 0xD, 0x20, 0xA0, 0x1680, 0x2000, 0x2001, 0x2002, 0x2003, 0x2004,
   0x2005, 0x2006, 0x2007, 0x2008, 0x2009, 0x200A, 0x2028, 0x2029, 0x202F, 0x205F, 0x3000,
   0xFEFF]

/-- The character is white space. -/
def IsSpace (c : Char) : Prop := c.toNat ∈ whiteSpaceCodes

instance (c : Char) : Decidable (IsSpace c) := by
  unfold IsSpace
  exact inferInstance

/-- The text is empty or made of white space only. -/
def onlyWhiteSpace (s : String) : Prop :=
  ∀ c ∈ s.data, IsSpace c

instance (s : String) : Decidable (onlyWhiteSpace s) := by
  unfold onlyWhiteSpace
  exact inferInstance

/-- The text `t` is the text `s` trimmed: `s` is `t` between two runs of white
space, and `t` neither starts nor ends with white space. -/
def TrimmedFrom (s t : String) : Prop :=
  ∃ before after : List Char,
    s.data = before ++ t.data ++ after
      ∧ (∀ c ∈ before, IsSpace c) ∧ (∀ c ∈ after, IsSpace c)
      ∧ (∀ c, t.data.head? = some c → ¬ IsSpace c)
      ∧ (∀ c, t.data.getLast? = some c → ¬ IsSpace c)

/-- A user matches a term when the lower-cased display name or the lower-cased
email contains the lower-cased term. -/
def matchesSpec (toLowerCase : String → String) (term : String) (user : UserRecord) : Prop :=
  (∃ name, user.displayName = some name
      ∧ containsText (toLowerCase name) (toLowerCase term))
    ∨ (∃ email, user.email = some email
      ∧ containsText (toLowerCase email) (toLowerCase term))

instance (toLowerCase : String → String) (term : String) (user : UserRecord) :
    Decidable (matchesSpec toLowerCase term user) := by
  unfold matchesSpec
  exact inferInstance

/-- A sample lower-casing, letter by letter over ASCII. -/
def asciiLower (s : String) : String := ⟨s.data.map Char.toLower⟩

/-- A sample customer. -/
def mona : UserRecord :=
  { id := "1", displayName := some "Mona", email := some "mona@shop.eg", phone := none,
    role := some "customer" }

/-- Three sample customers. -/
def sampleUsers : List UserRecord :=
  [ { id := "1", displayName := some "Mona", email := some "mona@shop.eg", phone := none,
      role := some "customer" },
    { id := "2", displayName := none, email := some "omar@mail.com", phone := none,
      role := some "customer" },
    { id := "3", displayName := none, email := none, phone := some "0100", role := some "customer" } ]

/-- The page holding the sample customers with `"  MON "` in the search box. -/
def monaSearch : PageState :=
  { users := sampleUsers, filteredUsers := sampleUsers, searchTerm := "  MON ", currentPage := 1,
    loading := false }

/-- The page holding the sample customers with only white space in the search box. -/
def blankSearch : PageState :=
  { users := sampleUsers, filteredUsers := [], searchTerm := " \t ", currentPage := 1,
    loading := false }

/-- The page once the fetch has answered with the sample customers. -/
def afterFetch : PageState :=
  { users := sampleUsers, filteredUsers := sampleUsers, searchTerm := "", currentPage := 1,
    loading := false }

end UsersPage

namespace VendorHome

/-! ### Rounding to double precision -/

theorem roundHalfEven_near (x : ℚ) : |(roundHalfEven x : ℚ) - x| ≤ 1 / 2 := by
  have h1 := Int.floor_le x
  have h2 := Int.lt_floor_add_one x
  unfold roundHalfEven
  rw [abs_le]
  split_ifs with ha hb hc
  · constructor <;> linarith
  · push_cast; constructor <;> linarith
  · constructor <;> linarith
  · push_cast; constructor <;> linarith

theorem roundHalfEven_eq (x : ℚ) (m : ℤ) (h : |x - m| < 1 / 2) : roundHalfEven x = m := by
  rw [abs_lt] at h
  have h1 := Int.floor_le x
  have h2 := Int.lt_floor_add_one x
  unfold roundHalfEven
  split_ifs with ha hb hc
  · have : (⌊x⌋ : ℚ) < m + 1 := by linarith
    have : ((m : ℚ) - 1) < ⌊x⌋ := by linarith
    have h3 : ⌊x⌋ < m + 1 := by exact_mod_cast ‹(⌊x⌋ : ℚ) < m + 1›
    have h4 : m - 1 < ⌊x⌋ := by exact_mod_cast ‹((m : ℚ) - 1) < ⌊x⌋›
    omega
  · have a1 : (⌊x⌋ : ℚ) < m := by linarith
    have a2 : ((m : ℚ) - 2) < ⌊x⌋ := by linarith
    have h3 : ⌊x⌋ < m := by exact_mod_cast a1
    have h4 : m - 2 < ⌊x⌋ := by exact_mod_cast a2
    omega
  · have he : x - ⌊x⌋ = 1 / 2 := le_antisymm (not_lt.mp hb) (not_lt.mp ha)
    have a1 : (⌊x⌋ : ℚ) < m := by linarith
    have a2 : ((m : ℚ) - 1) < ⌊x⌋ := by linarith
    have h3 : ⌊x⌋ < m := by exact_mod_cast a1
    have h4 : m - 1 < ⌊x⌋ := by exact_mod_cast a2
    omega
  · have he : x - ⌊x⌋ = 1 / 2 := le_antisymm (not_lt.mp hb) (not_lt.mp ha)
    have a1 : (⌊x⌋ : ℚ) < m := by linarith
    have a2 : ((m : ℚ) - 1) < ⌊x⌋ := by linarith
    have h3 : ⌊x⌋ < m := by exact_mod_cast a1
    have h4 : m - 1 < ⌊x⌋ := by exact_mod_cast a2
    omega

theorem roundHalfEven_intCast (n : ℤ) : roundHalfEven (n : ℚ) = n :=
  roundHalfEven_eq _ n (by simp)

theorem two_zpow_pos (e : ℤ) : (0 : ℚ) < 2 ^ e := zpow_pos (by norm_num) e

theorem binadeExponent_eq (q : ℚ) (e : ℤ) (he : -1022 ≤ e) (hlo : (2 : ℚ) ^ e ≤ |q|)
    (hhi : |q| < (2 : ℚ) ^ (e + 1)) : binadeExponent q = e := by
  have hpos : (0 : ℚ) < |q| := lt_of_lt_of_le (two_zpow_pos e) hlo
  have h1 : e ≤ Int.log 2 |q| := (Int.zpow_le_iff_le_log (by norm_num) hpos).mp (by exact_mod_cast hlo)
  have h2 : Int.log 2 |q| < e + 1 := (Int.lt_zpow_iff_log_lt (by norm_num) hpos).mp (by exact_mod_cast hhi)
  unfold binadeExponent
  omega

/-- The double nearest to `q`, read off a binade and a mantissa. -/
theorem roundDouble_eq (q : ℚ) (e m : ℤ) (he : -1022 ≤ e) (hlo : (2 : ℚ) ^ e ≤ |q|)
    (hhi : |q| < (2 : ℚ) ^ (e + 1)) (hm : |q / 2 ^ (e - 52) - m| < 1 / 2) :
    roundDouble q = m * 2 ^ (e - 52) := by
  unfold roundDouble
  rw [binadeExponent_eq q e he hlo hhi, roundHalfEven_eq _ m hm]

/-- A number that is a multiple of the spacing around it is a double. -/
theorem roundDouble_of_multiple (q : ℚ) (k : ℤ) (h : q = k * 2 ^ (binadeExponent q - 52)) :
    roundDouble q = q := by
  unfold roundDouble
  have hq : q / 2 ^ (binadeExponent q - 52) = k :=
    (div_eq_iff (ne_of_gt (two_zpow_pos _))).mpr h
  rw [hq, roundHalfEven_intCast, ← h]

/-- The double nearest to `q` is within half a spacing of `q`. -/
theorem roundDouble_near (q : ℚ) :
    |roundDouble q - q| ≤ 2 ^ (binadeExponent q - 53) := by
  unfold roundDouble
  have hu := two_zpow_pos (binadeExponent q - 52)
  have h := roundHalfEven_near (q / 2 ^ (binadeExponent q - 52))
  have e1 : (roundHalfEven (q / 2 ^ (binadeExponent q - 52)) : ℚ) * 2 ^ (binadeExponent q - 52) - q
      = ((roundHalfEven (q / 2 ^ (binadeExponent q - 52)) : ℚ) - q / 2 ^ (binadeExponent q - 52))
          * 2 ^ (binadeExponent q - 52) := by
    field_simp
  have e2 : (2 : ℚ) ^ (binadeExponent q - 53) = 1 / 2 * 2 ^ (binadeExponent q - 52) := by
    have : binadeExponent q - 52 = (binadeExponent q - 53) + 1 := by ring
    rw [this, zpow_add₀ (by norm_num : (2 : ℚ) ≠ 0)]
    ring
  rw [e1, e2, abs_mul, abs_of_pos hu]
  exact mul_le_mul_of_nonneg_right h (le_of_lt hu)

/-- The double nearest to `q` is within a relative `2⁻⁵³` of `q`, up to half the
subnormal spacing. -/
theorem roundDouble_near_rel (q : ℚ) :
    |roundDouble q - q| ≤ 2 ^ (-53 : ℤ) * |q| + 2 ^ (-1075 : ℤ) := by
  by_cases hq : q = 0
  · subst hq
    have : roundDouble 0 = 0 := roundDouble_of_multiple 0 0 (by simp)
    rw [this]
    simp
    positivity
  · have hpos : (0 : ℚ) < |q| := abs_pos.mpr hq
    have h := roundDouble_near q
    refine le_trans h ?_
    unfold binadeExponent
    rcases le_total (Int.log 2 |q|) (-1022) with hle | hge
    · rw [max_eq_right hle]
      have : (-1022 : ℤ) - 53 = -1075 := by norm_num
      rw [this]
      have : (0 : ℚ) ≤ 2 ^ (-53 : ℤ) * |q| := by positivity
      linarith
    · rw [max_eq_left hge]
      have h1 : ((2 : ℕ) : ℚ) ^ Int.log 2 |q| ≤ |q| := Int.zpow_log_le_self (by norm_num) hpos
      have h2 : (2 : ℚ) ^ (Int.log 2 |q| - 53) = 2 ^ (-53 : ℤ) * 2 ^ Int.log 2 |q| := by
        rw [← zpow_add₀ (by norm_num : (2 : ℚ) ≠ 0)]
        congr 1
        ring
      rw [h2]
      have h3 : (2 : ℚ) ^ (-53 : ℤ) * 2 ^ Int.log 2 |q| ≤ 2 ^ (-53 : ℤ) * |q| := by
        apply mul_le_mul_of_nonneg_left _ (by positivity)
        exact_mod_cast h1
      have : (0 : ℚ) ≤ 2 ^ (-1075 : ℤ) := by positivity
      linarith

/-- An integer of magnitude at most `2⁵³` is a double. -/
theorem roundDouble_intCast (n : ℤ) (h : |n| ≤ 2 ^ 53) : roundDouble (n : ℚ) = n := by
  by_cases hn : n = 0
  · subst hn
    exact roundDouble_of_multiple _ 0 (by simp)
  · have hpos : (0 : ℚ) < |(n : ℚ)| := abs_pos.mpr (by exact_mod_cast hn)
    have habs : (1 : ℚ) ≤ |(n : ℚ)| := by
      have : (1 : ℤ) ≤ |n| := Int.one_le_abs hn
      exact_mod_cast this
    have hub : |(n : ℚ)| ≤ 2 ^ 53 := by exact_mod_cast h
    have hl0 : (0 : ℤ) ≤ Int.log 2 |(n : ℚ)| :=
      (Int.zpow_le_iff_le_log (by norm_num) hpos).mp (by simpa using habs)
    have hl1 : Int.log 2 |(n : ℚ)| < 54 :=
      (Int.lt_zpow_iff_log_lt (by norm_num) hpos).mp (by
        have : |(n : ℚ)| < 2 ^ 54 := lt_of_le_of_lt hub (by norm_num)
        exact_mod_cast this)
    have hbe : binadeExponent (n : ℚ) = Int.log 2 |(n : ℚ)| := by
      unfold binadeExponent
      omega
    rcases lt_or_le (Int.log 2 |(n : ℚ)|) 53 with hlt | hge
    · obtain ⟨d, hd⟩ : ∃ d : ℕ, (52 : ℤ) - Int.log 2 |(n : ℚ)| = d :=
        ⟨(52 - Int.log 2 |(n : ℚ)|).toNat, by omega⟩
      apply roundDouble_of_multiple _ (n * 2 ^ d)
      rw [hbe]
      have he : Int.log 2 |(n : ℚ)| - 52 = -(d : ℤ) := by omega
      rw [he, zpow_neg, zpow_natCast]
      push_cast
      field_simp
    · have he : Int.log 2 |(n : ℚ)| = 53 := by omega
      have hlb : ((2 : ℕ) : ℚ) ^ Int.log 2 |(n : ℚ)| ≤ |(n : ℚ)| :=
        Int.zpow_log_le_self (by norm_num) hpos
      rw [he] at hlb
      have habs53 : |n| = 2 ^ 53 := by
        have h1 : ((2 : ℚ) ^ (53 : ℤ)) ≤ |(n : ℚ)| := by exact_mod_cast hlb
        have h2 : ((2 ^ 53 : ℤ) : ℚ) ≤ ((|n| : ℤ) : ℚ) := by
          rw [Int.cast_abs]
          norm_num at h1 ⊢
          exact h1
        have h3 : (2 ^ 53 : ℤ) ≤ |n| := by exact_mod_cast h2
        omega
      apply roundDouble_of_multiple _ (n / 2)
      rw [hbe, he]
      have hdiv : (2 : ℤ) ∣ n := by
        rcases abs_eq (by norm_num : (0 : ℤ) ≤ 2 ^ 53) |>.mp habs53 with h | h
        · rw [h]; norm_num
        · rw [h]; norm_num
      obtain ⟨c, hc⟩ := hdiv
      rw [hc]
      simp
      ring

theorem roundHalfEven_tie_even (x : ℚ) (h : |(roundHalfEven x : ℚ) - x| = 1 / 2) :
    Even (roundHalfEven x) := by
  have h1 := Int.floor_le x
  have h2 := Int.lt_floor_add_one x
  unfold roundHalfEven at h ⊢
  split_ifs at h ⊢ with ha hb hc
  · exfalso
    rw [abs_of_nonpos (by linarith)] at h
    linarith
  · exfalso
    push_cast at h
    rw [abs_of_nonneg (by linarith)] at h
    linarith
  · exact Int.even_iff.mpr hc
  · rw [Int.even_add_one, Int.even_iff]
    exact hc

theorem roundHalfEven_eq_of_le (x : ℚ) (m : ℤ) (h : |x - m| ≤ 1 / 2)
    (heven : |x - m| = 1 / 2 → Even m) : roundHalfEven x = m := by
  rcases lt_or_eq_of_le h with hlt | heq
  · exact roundHalfEven_eq x m hlt
  · have hm := heven heq
    rw [Int.even_iff] at hm
    rcases abs_eq (by norm_num : (0 : ℚ) ≤ 1 / 2) |>.mp heq with hx | hx
    · -- x = m + 1/2
      have hf : ⌊x⌋ = m := by
        rw [Int.floor_eq_iff]
        constructor <;> linarith
      unfold roundHalfEven
      rw [hf]
      have e1 : ¬ (x - (m : ℚ) < 1 / 2) := by linarith
      have e2 : ¬ ((1 : ℚ) / 2 < x - m) := by linarith
      simp only [e1, e2, if_false, hm, if_true]
    · -- x = m - 1/2
      have hf : ⌊x⌋ = m - 1 := by
        rw [Int.floor_eq_iff]
        push_cast
        constructor <;> linarith
      unfold roundHalfEven
      rw [hf]
      have e1 : ¬ (x - ((m - 1 : ℤ) : ℚ) < 1 / 2) := by push_cast; linarith
      have e2 : ¬ ((1 : ℚ) / 2 < x - ((m - 1 : ℤ) : ℚ)) := by push_cast; linarith
      have e3 : ¬ ((m - 1) % 2 = 0) := by omega
      simp only [e1, e2, e3, if_false]
      omega

theorem binadeExponent_of_small (q : ℚ) (hq : q ≠ 0) (h : |q| < (2 : ℚ) ^ (-1022 : ℤ)) :
    binadeExponent q = -1022 := by
  have hpos : (0 : ℚ) < |q| := abs_pos.mpr hq
  have h2 : Int.log 2 |q| < -1022 :=
    (Int.lt_zpow_iff_log_lt (by norm_num) hpos).mp (by exact_mod_cast h)
  unfold binadeExponent
  omega

theorem roundDouble_zero : roundDouble 0 = 0 :=
  roundDouble_of_multiple 0 0 (by simp)

theorem half_spacing (e : ℤ) : (2 : ℚ) ^ (e - 53) = 1 / 2 * 2 ^ (e - 52) := by
  have : e - 52 = (e - 53) + 1 := by ring
  rw [this, zpow_add₀ (by norm_num : (2 : ℚ) ≠ 0)]
  ring

/-- The rounding of the code is the rounding of the specification. -/
theorem roundDouble_roundsTo (q : ℚ) : RoundsTo q (roundDouble q) := by
  by_cases hq : q = 0
  · subst hq
    refine ⟨-1022, 0, Or.inr ⟨rfl, by simp; positivity⟩, by simp [roundDouble_zero], ?_, ?_⟩
    · rw [roundDouble_zero]; simp; positivity
    · intro h
      exact even_zero
  · have hpos : (0 : ℚ) < |q| := abs_pos.mpr hq
    refine ⟨binadeExponent q, roundHalfEven (q / 2 ^ (binadeExponent q - 52)), ?_, rfl,
      roundDouble_near q, ?_⟩
    · rcases le_or_lt (-1022) (Int.log 2 |q|) with hge | hlt
      · left
        have hbe : binadeExponent q = Int.log 2 |q| := by
          unfold binadeExponent
          omega
        rw [hbe]
        refine ⟨hge, ?_, ?_⟩
        · exact_mod_cast Int.zpow_log_le_self (R := ℚ) (b := 2) (by norm_num) hpos
        · exact_mod_cast Int.lt_zpow_succ_log_self (R := ℚ) (b := 2) (by norm_num) |q|
      · right
        have hbe : binadeExponent q = -1022 := by
          unfold binadeExponent
          omega
        refine ⟨hbe, ?_⟩
        have h1 : |q| < ((2 : ℕ) : ℚ) ^ (Int.log 2 |q| + 1) :=
          Int.lt_zpow_succ_log_self (by norm_num) |q|
        have h2 : ((2 : ℕ) : ℚ) ^ (Int.log 2 |q| + 1) ≤ ((2 : ℕ) : ℚ) ^ (-1022 : ℤ) :=
          zpow_le_zpow_right₀ (by norm_num) (by omega)
        exact_mod_cast lt_of_lt_of_le h1 h2
    · intro h
      apply roundHalfEven_tie_even
      have hu := two_zpow_pos (binadeExponent q - 52)
      unfold roundDouble at h
      rw [half_spacing] at h
      have e1 : (roundHalfEven (q / 2 ^ (binadeExponent q - 52)) : ℚ) * 2 ^ (binadeExponent q - 52) - q
          = ((roundHalfEven (q / 2 ^ (binadeExponent q - 52)) : ℚ) - q / 2 ^ (binadeExponent q - 52))
              * 2 ^ (binadeExponent q - 52) := by
        field_simp
      rw [e1, abs_mul, abs_of_pos hu] at h
      exact mul_right_cancel₀ (ne_of_gt hu) h

/-- The rounding of the specification is a function: it is the rounding of the
code. -/
theorem roundsTo_eq_roundDouble (q r : ℚ) (h : RoundsTo q r) : r = roundDouble q := by
  obtain ⟨e, m, hbin, hr, hnear, htie⟩ := h
  have hu := two_zpow_pos (e - 52)
  have e1 : r - q = ((m : ℚ) - q / 2 ^ (e - 52)) * 2 ^ (e - 52) := by
    rw [hr]; field_simp
  by_cases hq : q = 0
  · subst hq
    rw [roundDouble_zero, hr]
    rw [e1, half_spacing, abs_mul, abs_of_pos hu] at hnear
    have h1 : |(m : ℚ) - 0 / 2 ^ (e - 52)| ≤ 1 / 2 := le_of_mul_le_mul_right hnear hu
    simp only [zero_div, sub_zero] at h1
    have h2 : |m| < 1 := by
      have : ((|m| : ℤ) : ℚ) < ((1 : ℤ) : ℚ) := by
        rw [Int.cast_abs]; push_cast; linarith
      exact_mod_cast this
    have h3 : m = 0 := by
      rw [abs_lt] at h2
      omega
    rw [h3]; simp
  · have he : binadeExponent q = e := by
      rcases hbin with ⟨h1, h2, h3⟩ | ⟨h1, h2⟩
      · exact binadeExponent_eq q e h1 h2 h3
      · rw [h1]; exact binadeExponent_of_small q hq h2
    have hx : |q / 2 ^ (e - 52) - (m : ℚ)| ≤ 1 / 2 := by
      rw [e1, half_spacing, abs_mul, abs_of_pos hu] at hnear
      rw [abs_sub_comm]
      exact le_of_mul_le_mul_right hnear hu
    have hm : roundHalfEven (q / 2 ^ (e - 52)) = m := by
      apply roundHalfEven_eq_of_le _ _ hx
      intro heq
      apply htie
      rw [e1, half_spacing, abs_mul, abs_of_pos hu, abs_sub_comm, heq]
    unfold roundDouble
    rw [he, hm, hr]

theorem doubleSumFrom_foldl (a : ℚ) (l : List ℚ) : DoubleSumFrom a l (l.foldl jsAdd a) := by
  induction l generalizing a with
  | nil => exact DoubleSumFrom.nil a
  | cons r rs ih =>
    exact DoubleSumFrom.cons a r (jsAdd a r) _ rs (roundDouble_roundsTo (a + r)) (ih (jsAdd a r))

theorem doubleSumFrom_eq_foldl (a s : ℚ) (l : List ℚ) (h : DoubleSumFrom a l s) :
    s = l.foldl jsAdd a := by
  induction h with
  | nil a => rfl
  | cons a r a1 s l hr _ ih =>
    have : a1 = jsAdd a r := roundsTo_eq_roundDouble (a + r) a1 hr
    rw [List.foldl_cons, ← this]
    exact ih

/-- The `toFixed(1)` of the code makes the text of the specification. -/
theorem toFixed1_fixedOf (x : ℚ) : FixedOf x (toFixed1 x) := by
  unfold toFixed1
  by_cases hx : x < 0
  · have hn : (0 : ℚ) ≤ -x := by linarith
    by_cases hb : (10 : ℚ) ^ 21 ≤ -x
    · simp only [hx, if_true, hb, FixedOf]
      exact ⟨trivial, by rw [abs_of_neg hx]; exact hb⟩
    · simp only [hx, if_true, hb, if_false, decide_True, FixedOf]
      have h0 : (0 : ℤ) ≤ ⌊-x * 10 + 1 / 2⌋ := Int.floor_nonneg.mpr (by linarith)
      have hc : ((Int.toNat ⌊-x * 10 + 1 / 2⌋ : ℕ) : ℚ) = ((⌊-x * 10 + 1 / 2⌋ : ℤ) : ℚ) := by
        have := Int.toNat_of_nonneg h0
        exact_mod_cast this
      have h1 := Int.floor_le (-x * 10 + 1 / 2)
      have h2 := Int.lt_floor_add_one (-x * 10 + 1 / 2)
      rw [hc, abs_of_neg hx]
      refine ⟨by simp [hx], by linarith, by linarith, by linarith⟩
  · have hn : (0 : ℚ) ≤ x := not_lt.mp hx
    by_cases hb : (10 : ℚ) ^ 21 ≤ x
    · simp only [hx, if_false, hb, if_true, FixedOf]
      exact ⟨trivial, by rw [abs_of_nonneg hn]; exact hb⟩
    · simp only [hx, if_false, hb, decide_False, FixedOf]
      have h0 : (0 : ℤ) ≤ ⌊x * 10 + 1 / 2⌋ := Int.floor_nonneg.mpr (by linarith)
      have hc : ((Int.toNat ⌊x * 10 + 1 / 2⌋ : ℕ) : ℚ) = ((⌊x * 10 + 1 / 2⌋ : ℤ) : ℚ) := by
        have := Int.toNat_of_nonneg h0
        exact_mod_cast this
      have h1 := Int.floor_le (x * 10 + 1 / 2)
      have h2 := Int.lt_floor_add_one (x * 10 + 1 / 2)
      rw [hc, abs_of_nonneg hn]
      refine ⟨by simp [hx], by linarith, by linarith, by linarith⟩

/-- The text of the specification is unique. -/
theorem fixedOf_unique (x : ℚ) (v w : RatingValue) (hv : FixedOf x v) (hw : FixedOf x w) :
    v = w := by
  cases v with
  | number a => exact absurd hv (by simp [FixedOf])
  | plain a =>
    cases w with
    | number b => exact absurd hw (by simp [FixedOf])
    | plain b =>
      simp only [FixedOf] at hv hw
      rw [hv.1, hw.1]
    | fixed n t =>
      simp only [FixedOf] at hv hw
      linarith [hv.2, hw.2.1]
  | fixed n t =>
    cases w with
    | number b => exact absurd hw (by simp [FixedOf])
    | plain b =>
      simp only [FixedOf] at hv hw
      linarith [hw.2, hv.2.1]
    | fixed n2 t2 =>
      simp only [FixedOf] at hv hw
      obtain ⟨a1, _, a3, a4⟩ := hv
      obtain ⟨b1, _, b3, b4⟩ := hw
      have hn : n = n2 := by
        cases n <;> cases n2 <;>
          first
          | rfl
          | (exfalso
             simp only [Bool.false_eq_true, false_iff, true_iff, not_lt] at a1 b1
             linarith)
      have ht : t = t2 := by
        have h1 : (t : ℚ) < t2 + 1 := by linarith
        have h2 : (t2 : ℚ) < t + 1 := by linarith
        have h3 : t < t2 + 1 := by exact_mod_cast h1
        have h4 : t2 < t + 1 := by exact_mod_cast h2
        omega
      rw [hn, ht]

/-! ### fetchAverageRating -/

theorem scanRatings_foldl (docs : List FeedbackDoc) (t : ℚ) (c : ℕ) :
    docs.foldl scanStep (t, c)
      = ((nonZeroRatings docs).foldl jsAdd t, c + (nonZeroRatings docs).length) := by
  induction docs generalizing t c with
  | nil => simp [nonZeroRatings, carriedRatings]
  | cons d ds ih =>
    rw [List.foldl_cons]
    rcases d with ⟨_ | r⟩
    · have hs : scanStep (t, c) ⟨none⟩ = (t, c) := by simp [scanStep, ratingTruthy]
      rw [hs, ih]
      simp [nonZeroRatings, carriedRatings]
    · by_cases hr : r = 0
      · subst hr
        have hs : scanStep (t, c) ⟨some 0⟩ = (t, c) := by simp [scanStep, ratingTruthy]
        rw [hs, ih]
        simp [nonZeroRatings, carriedRatings]
      · have hs : scanStep (t, c) ⟨some r⟩ = (jsAdd t r, c + 1) := by
          simp [scanStep, ratingTruthy, hr]
        rw [hs, ih]
        simp [nonZeroRatings, carriedRatings, hr]
        omega

theorem scanRatings_eq (docs : List FeedbackDoc) :
    scanRatings docs = (doubleSum (nonZeroRatings docs), (nonZeroRatings docs).length) := by
  unfold scanRatings doubleSum
  rw [scanRatings_foldl]
  simp

theorem toFixed1_nonneg_near (a : ℚ) (ha : 0 ≤ a) :
    |((Int.toNat ⌊a * 10 + 1 / 2⌋ : ℕ) : ℚ) / 10 - a| ≤ 1 / 20 := by
  have h0 : (0 : ℤ) ≤ ⌊a * 10 + 1 / 2⌋ := Int.floor_nonneg.mpr (by positivity)
  have hc : ((Int.toNat ⌊a * 10 + 1 / 2⌋ : ℕ) : ℚ) = ((⌊a * 10 + 1 / 2⌋ : ℤ) : ℚ) := by
    have := Int.toNat_of_nonneg h0
    exact_mod_cast this
  rw [hc]
  have h1 := Int.floor_le (a * 10 + 1 / 2)
  have h2 := Int.lt_floor_add_one (a * 10 + 1 / 2)
  rw [abs_le]
  constructor <;> linarith

theorem toFixed1_near (x : ℚ) :
    match toFixed1 x with
    | .fixed negative tenths => |(RatingValue.fixed negative tenths).value - x| ≤ 1 / 20
    | .plain y => y = x ∧ (10 : ℚ) ^ 21 ≤ |x|
    | .number _ => False := by
  unfold toFixed1
  by_cases hx : x < 0
  · have hn : (0 : ℚ) ≤ -x := by linarith
    by_cases hb : (10 : ℚ) ^ 21 ≤ -x
    · simp only [hx, if_true, hb]
      exact ⟨trivial, by rw [abs_of_neg hx]; exact hb⟩
    · simp only [hx, if_true, hb, if_false, decide_True, RatingValue.value]
      have h := toFixed1_nonneg_near (-x) hn
      rw [abs_le] at h ⊢
      constructor <;> linarith [h.1, h.2]
  · have hn : (0 : ℚ) ≤ x := not_lt.mp hx
    by_cases hb : (10 : ℚ) ^ 21 ≤ x
    · simp only [hx, if_false, hb, if_true]
      exact ⟨trivial, by rw [abs_of_nonneg hn]; exact hb⟩
    · simp only [hx, if_false, hb, decide_False, RatingValue.value, Bool.false_eq_true]
      have h := toFixed1_nonneg_near x hn
      rw [abs_le] at h ⊢
      constructor <;> linarith [h.1, h.2]

/-- Whole numbers whose magnitudes add up to at most `2⁵³` are summed exactly. -/
theorem foldl_jsAdd_exact (l : List ℚ) (k : ℤ) (hint : ∀ r ∈ l, ∃ n : ℤ, r = n)
    (hsum : |(k : ℚ)| + (l.map abs).sum ≤ 2 ^ 53) :
    l.foldl jsAdd (k : ℚ) = k + l.sum := by
  induction l generalizing k with
  | nil => simp
  | cons r rs ih =>
    obtain ⟨n, hn⟩ := hint r (List.mem_cons_self r rs)
    subst hn
    simp only [List.map_cons, List.sum_cons] at hsum
    have hrest : (0 : ℚ) ≤ (rs.map abs).sum :=
      List.sum_nonneg (fun x hx => by
        obtain ⟨y, _, rfl⟩ := List.mem_map.mp hx
        exact abs_nonneg y)
    have hkn : |((k + n : ℤ) : ℚ)| ≤ |(k : ℚ)| + |(n : ℚ)| := by
      push_cast
      exact abs_add _ _
    have hstep : jsAdd (k : ℚ) (n : ℚ) = ((k + n : ℤ) : ℚ) := by
      unfold jsAdd
      have hb : |k + n| ≤ 2 ^ 53 := by
        have : ((|k + n| : ℤ) : ℚ) ≤ ((2 ^ 53 : ℤ) : ℚ) := by
          rw [Int.cast_abs]
          push_cast at hkn ⊢
          linarith
        exact_mod_cast this
      rw [← Int.cast_add]
      exact roundDouble_intCast (k + n) hb
    rw [List.foldl_cons, hstep, ih (k + n) (fun x hx => hint x (List.mem_cons_of_mem _ hx))
      (by linarith)]
    push_cast
    rw [List.sum_cons]
    ring

theorem doubleSum_exact (l : List ℚ) (hint : ∀ r ∈ l, ∃ n : ℤ, r = n)
    (hsum : (l.map abs).sum ≤ 2 ^ 53) : doubleSum l = l.sum := by
  have h := foldl_jsAdd_exact l 0 hint (by simpa using hsum)
  unfold doubleSum
  simpa using h

theorem sum_filter_ne_zero (l : List ℚ) :
    (l.filter (fun r => decide (r ≠ 0))).sum = l.sum := by
  induction l with
  | nil => rfl
  | cons r rs ih =>
    by_cases hr : r = 0
    · simpa [List.filter_cons, hr] using ih
    · simpa [List.filter_cons, hr] using ih

/-- What `fetchAverageRating` stores, in terms of the ratings that are not `0`. -/
theorem fetchAverageRating_eq (productId : String) (docs : List FeedbackDoc)
    (prev : AverageRatings) :
    fetchAverageRating productId (some docs) prev productId
      = some (if nonZeroRatings docs = [] then RatingValue.number 0
              else toFixed1 (jsDiv (doubleSum (nonZeroRatings docs))
                      (nonZeroRatings docs).length)) := by
  simp only [fetchAverageRating, scanRatings_eq, setKey, if_true]
  by_cases h : nonZeroRatings docs = []
  · simp [h]
  · have : (nonZeroRatings docs).length > 0 := List.length_pos.mpr h
    simp [h, this]

/-- C1 as stated fails: for two documents with the ratings `0` and `4` the mean
of the rating values is `2`, and the stored text is `"4.0"`: the document with
rating `0` is skipped by `if (data.rating)`. -/
theorem fetchAverageRating_counterexample :
    carriedRatings zeroAndFour = [0, 4]
      ∧ meanOfRatings zeroAndFour = 2
      ∧ fetchAverageRating "p1" (some zeroAndFour) (fun _ => none) "p1"
          = some (RatingValue.fixed false 40)
      ∧ (RatingValue.fixed false 40).value = 4 := by
  have hnz : nonZeroRatings zeroAndFour = [4] := by
    simp [nonZeroRatings, carriedRatings, zeroAndFour]
  have hsum : doubleSum [4] = 4 := by
    have := doubleSum_exact [4] (by intro r hr; exact ⟨4, by simpa using hr⟩) (by norm_num)
    simpa using this
  have hdiv : jsDiv 4 ((1 : ℕ) : ℚ) = 4 := by
    unfold jsDiv
    have := roundDouble_intCast 4 (by norm_num)
    simpa using this
  refine ⟨by simp [carriedRatings, zeroAndFour], ?_, ?_, ?_⟩
  · simp [meanOfRatings, carriedRatings, zeroAndFour]
    norm_num
  · rw [fetchAverageRating_eq, hnz, hsum]
    simp only [List.length_singleton, hdiv]
    norm_num [toFixed1]
    rfl
  · norm_num [RatingValue.value]

/-- C1, amended: for every product id and every list of feedback documents that
`getDocs` returned, `fetchAverageRating` stores under
`averageRatings[productId]` the number `0` when no document has a rating other
than `0`; otherwise it stores the text that `toFixed(1)` makes of the quotient,
rounded to double precision, of the sum of the ratings other than `0` (added in
document order, each addition rounded to double precision) by their number: a
document with rating `0` is not counted.  That sum is the exact sum when the
ratings are whole numbers whose magnitudes add up to at most `2⁵³`, and it is
then also the sum of all the ratings the documents carry. -/
theorem fetchAverageRating_stores_mean (productId : String) (docs : List FeedbackDoc)
    (prev : AverageRatings) :
    (nonZeroRatings docs = [] →
        fetchAverageRating productId (some docs) prev productId = some (RatingValue.number 0))
      ∧ (nonZeroRatings docs ≠ [] →
          ∃ (total quotient : ℚ) (v : RatingValue),
            DoubleSumFrom 0 (nonZeroRatings docs) total
              ∧ RoundsTo (total / (nonZeroRatings docs).length) quotient
              ∧ FixedOf quotient v
              ∧ fetchAverageRating productId (some docs) prev productId = some v)
      ∧ (∀ (total quotient : ℚ) (v : RatingValue),
          nonZeroRatings docs ≠ [] →
          DoubleSumFrom 0 (nonZeroRatings docs) total →
          RoundsTo (total / (nonZeroRatings docs).length) quotient →
          FixedOf quotient v →
            fetchAverageRating productId (some docs) prev productId = some v)
      ∧ ((∀ r ∈ nonZeroRatings docs, ∃ k : ℤ, r = k) →
          ((nonZeroRatings docs).map abs).sum ≤ 2 ^ 53 →
            DoubleSumFrom 0 (nonZeroRatings docs) (nonZeroRatings docs).sum)
      ∧ (nonZeroRatings docs).sum = (carriedRatings docs).sum := by
  refine ⟨?_, ?_, ?_, ?_, sum_filter_ne_zero (carriedRatings docs)⟩
  · intro h
    rw [fetchAverageRating_eq, if_pos h]
  · intro h
    refine ⟨doubleSum (nonZeroRatings docs), _, _, doubleSumFrom_foldl 0 _,
      roundDouble_roundsTo _, toFixed1_fixedOf _, ?_⟩
    rw [fetchAverageRating_eq, if_neg h]
    rfl
  · intro total quotient v h hsum hq hv
    have e1 : total = doubleSum (nonZeroRatings docs) := doubleSumFrom_eq_foldl 0 total _ hsum
    have e2 : quotient = jsDiv (doubleSum (nonZeroRatings docs)) (nonZeroRatings docs).length := by
      rw [← e1]
      exact roundsTo_eq_roundDouble _ _ hq
    have e3 : v = toFixed1 quotient := fixedOf_unique quotient _ _ hv (toFixed1_fixedOf quotient)
    rw [fetchAverageRating_eq, if_neg h, e3, e2]
  · intro hint hsum
    have h := doubleSumFrom_foldl 0 (nonZeroRatings docs)
    have e := doubleSum_exact (nonZeroRatings docs) hint hsum
    unfold doubleSum at e
    rw [e] at h
    exact h

theorem nonZeroRatings_nineteenTwos :
    nonZeroRatings nineteenTwos = List.replicate 19 2 ++ [3] := by
  simp [nonZeroRatings, carriedRatings, nineteenTwos, List.filterMap_append, List.filterMap_replicate,
    List.filter_append, List.filter_replicate]

theorem doubleSum_nineteenTwos : doubleSum (nonZeroRatings nineteenTwos) = 41 := by
  rw [nonZeroRatings_nineteenTwos]
  have h := doubleSum_exact (List.replicate 19 2 ++ [3])
    (by
      intro r hr
      rcases List.mem_append.mp hr with h | h
      · exact ⟨2, by rw [List.eq_of_mem_replicate h]; norm_num⟩
      · exact ⟨3, by rw [List.mem_singleton.mp h]; norm_num⟩)
    (by simp [List.sum_replicate]; norm_num)
  rw [h]
  simp [List.sum_replicate]
  norm_num

/-- The double nearest to `41 / 20` lies below `2.05`. -/
theorem jsDiv_41_20 : jsDiv 41 ((20 : ℕ) : ℚ) = 4616189618054758 * 2 ^ (-51 : ℤ) := by
  unfold jsDiv
  have h := roundDouble_eq (41 / ((20 : ℕ) : ℚ)) 1 4616189618054758 (by norm_num)
    (by rw [abs_of_pos (by norm_num)]; norm_num)
    (by rw [abs_of_pos (by norm_num)]; norm_num)
    (by
      have : ((1 : ℤ) - 52) = -51 := by norm_num
      rw [this, zpow_neg]
      norm_num [abs_lt])
  rw [h]
  norm_num

/-- For nineteen ratings of `2` and one of `3` the exact mean is `2.05`, its
double lies below it, and the stored text is `"2.0"`. -/
theorem fetchAverageRating_nineteenTwos :
    fetchAverageRating "p1" (some nineteenTwos) (fun _ => none) "p1"
      = some (RatingValue.fixed false 20) := by
  rw [fetchAverageRating_eq, doubleSum_nineteenTwos, nonZeroRatings_nineteenTwos]
  have hl : (List.replicate 19 (2 : ℚ) ++ [3]).length = 20 := by simp
  have hne : List.replicate 19 (2 : ℚ) ++ [3] ≠ [] := by simp
  rw [hl, if_neg hne, jsDiv_41_20]
  have hx : ¬ ((4616189618054758 : ℚ) * 2 ^ (-51 : ℤ) < 0) := by
    rw [zpow_neg]; norm_num
  have hb : ¬ ((10 : ℚ) ^ 21 ≤ 4616189618054758 * 2 ^ (-51 : ℤ)) := by
    rw [zpow_neg]; norm_num
  have hf : ⌊(4616189618054758 : ℚ) * 2 ^ (-51 : ℤ) * 10 + 1 / 2⌋ = 20 := by
    rw [Int.floor_eq_iff, zpow_neg]
    norm_num
  simp only [toFixed1, hx, if_false, hb, hf, decide_False]
  rfl

theorem fetchAverageRating_stores_mean_witness :
    ((∀ r ∈ nonZeroRatings nineteenTwos, ∃ k : ℤ, r = k)
        ∧ ((nonZeroRatings nineteenTwos).map abs).sum ≤ 2 ^ 53
        ∧ nonZeroRatings nineteenTwos ≠ []
        ∧ (nonZeroRatings nineteenTwos).sum = 41
        ∧ RoundsTo (41 / (nonZeroRatings nineteenTwos).length) (4616189618054758 * 2 ^ (-51 : ℤ))
        ∧ FixedOf (4616189618054758 * 2 ^ (-51 : ℤ)) (RatingValue.fixed false 20))
      ∧ fetchAverageRating "p1" (some nineteenTwos) (fun _ => none) "p1"
          = some (RatingValue.fixed false 20) := by
  have h1 : ∀ r ∈ nonZeroRatings nineteenTwos, ∃ k : ℤ, r = k := by
    rw [nonZeroRatings_nineteenTwos]
    intro r hr
    rcases List.mem_append.mp hr with h | h
    · exact ⟨2, by rw [List.eq_of_mem_replicate h]; norm_num⟩
    · exact ⟨3, by rw [List.mem_singleton.mp h]; norm_num⟩
  have h2 : ((nonZeroRatings nineteenTwos).map abs).sum ≤ 2 ^ 53 := by
    rw [nonZeroRatings_nineteenTwos]
    simp [List.sum_replicate]
    norm_num
  have h3 : nonZeroRatings nineteenTwos ≠ [] := by
    rw [nonZeroRatings_nineteenTwos]
    simp
  have h4 : (nonZeroRatings nineteenTwos).sum = 41 := by
    rw [nonZeroRatings_nineteenTwos]
    simp [List.sum_replicate]
    norm_num
  have hlen : (nonZeroRatings nineteenTwos).length = 20 := by
    rw [nonZeroRatings_nineteenTwos]
    simp
  have h5 : RoundsTo (41 / (nonZeroRatings nineteenTwos).length)
      (4616189618054758 * 2 ^ (-51 : ℤ)) := by
    rw [hlen]
    refine ⟨1, 4616189618054758, Or.inl ⟨by norm_num, ?_, ?_⟩, by norm_num, ?_, ?_⟩
    · rw [abs_of_pos (by norm_num)]; norm_num
    · rw [abs_of_pos (by norm_num)]; norm_num
    · have e1 : ((1 : ℤ) - 53) = -52 := by norm_num
      rw [e1, zpow_neg, zpow_neg, abs_le]
      norm_num
    · intro _
      exact ⟨2308094809027379, by norm_num⟩
  have h6 : FixedOf (4616189618054758 * 2 ^ (-51 : ℤ)) (RatingValue.fixed false 20) := by
    have hpos : (0 : ℚ) < 4616189618054758 * 2 ^ (-51 : ℤ) := by positivity
    have habs : |(4616189618054758 : ℚ) * 2 ^ (-51 : ℤ)| = 4616189618054758 * 2 ^ (-51 : ℤ) :=
      abs_of_pos hpos
    simp only [FixedOf]
    rw [habs, zpow_neg]
    norm_num
  refine ⟨⟨h1, h2, h3, h4, h5, h6⟩, ?_⟩
  have hsum := (fetchAverageRating_stores_mean "p1" nineteenTwos (fun _ => none)).2.2.2.1 h1 h2
  rw [h4] at hsum
  exact (fetchAverageRating_stores_mean "p1" nineteenTwos (fun _ => none)).2.2.1 41
    (4616189618054758 * 2 ^ (-51 : ℤ)) (RatingValue.fixed false 20) h3 hsum h5 h6

theorem favTruthy_not_not (v : Option Bool) :
    favTruthy (some (!(favTruthy (some (!(favTruthy v)))))) = favTruthy v := by
  rcases v with _ | _ | _ <;> rfl

/-- The world left by `handleFavoriteClick` when the write is rejected. -/
theorem handleFavoriteClick_fail (user : User) (favorites : Favorites) (product : Product)
    (w : World) :
    handleFavoriteClick false (some user) favorites product w =
      (.ok (),
        { w with
          favorites :=
            setKey (setKey w.favorites product.id (!favTruthy (w.favorites product.id)))
              product.id (!favTruthy (some (!favTruthy (w.favorites product.id))))
          toasts := w.toasts ++ [Toast.error "Something went wrong."]
          calls := w.calls ++
            [if favTruthy (favorites product.id) then
               (Call.deleteDoc "favorite" (docId user.uid product.id), false)
             else (Call.setDoc "favorite" (docId user.uid product.id), false)]
          console := w.console ++ ["Failed to toggle favorite:"] }) := by
  cases hf : favTruthy (favorites product.id) <;>
    simp [handleFavoriteClick, tryCatch, bind, Handler.bind, setFavorites, deleteFavorite,
      setFavorite, toastSuccess, toastError, consoleError, World.logCall, setKey, hf]

/-- C2: for a logged-in user, when the backend write (`deleteDoc` or `setDoc`)
is rejected, the handler completes with the truthiness of
`favorites[product.id]` as it was before the click and with the entry of every
other product unchanged. -/
theorem handleFavoriteClick_rollback (writeOk : Bool) (user : User) (favorites : Favorites)
    (product : Product) (w : World) (hfail : writeOk = false) :
    (handleFavoriteClick writeOk (some user) favorites product w).1 = .ok ()
      ∧ favTruthy ((handleFavoriteClick writeOk (some user) favorites product w).2.favorites
            product.id) = favTruthy (w.favorites product.id)
      ∧ ∀ k, k ≠ product.id →
          (handleFavoriteClick writeOk (some user) favorites product w).2.favorites k
            = w.favorites k := by
  subst hfail
  rw [handleFavoriteClick_fail]
  refine ⟨rfl, ?_, ?_⟩
  · simp only [setKey, if_true]
    exact favTruthy_not_not _
  · intro k hk
    simp [setKey, hk]

theorem handleFavoriteClick_rollback_witness :
    false = false
      ∧ favTruthy ((handleFavoriteClick false (some alice) favWorld.favorites vase favWorld).2.favorites
            "p1") = true :=
  ⟨rfl, (handleFavoriteClick_rollback false alice favWorld.favorites vase favWorld rfl).2.1⟩

/-- The world left by `handleFavoriteClick` when the write is accepted. -/
theorem handleFavoriteClick_ok (user : User) (favorites : Favorites) (product : Product)
    (w : World) :
    handleFavoriteClick true (some user) favorites product w =
      (.ok (),
        { w with
          db := { w.db with
                  favorite :=
                    if favTruthy (favorites product.id) then
                      fun k => if k = docId user.uid product.id then none else w.db.favorite k
                    else
                      setKey w.db.favorite (docId user.uid product.id)
                        { userId := user.uid
                          productId := product.id
                          title := product.data.title
                          imgURL := product.data.imgURL
                          price := product.data.price } }
          favorites := setKey w.favorites product.id (!favTruthy (w.favorites product.id))
          toasts := w.toasts ++
            [if favTruthy (favorites product.id) then Toast.success "Removed from favorites!"
             else Toast.success "Added to favorites!"]
          calls := w.calls ++
            [if favTruthy (favorites product.id) then
               (Call.deleteDoc "favorite" (docId user.uid product.id), true)
             else (Call.setDoc "favorite" (docId user.uid product.id), true)] }) := by
  cases hf : favTruthy (favorites product.id) <;>
    simp [handleFavoriteClick, tryCatch, bind, Handler.bind, setFavorites, deleteFavorite,
      setFavorite, toastSuccess, toastError, consoleError, World.logCall, setKey, hf]

/-- C3 as stated fails: the handler branches on the `favorites` value it captured
when the page was rendered and toggles the live state.  Here the live state and
the store mark the vase as a favorite of alice while the captured value does
not: with the write accepted the handler issues `setDoc`, not `deleteDoc`, the
document `favorite/u1_p1` is still there, and the flag becomes `false`. -/
theorem handleFavoriteClick_success_counterexample :
    favTruthy (favWorld.favorites vase.id) = true
      ∧ (favWorld.db.favorite "u1_p1").isSome = true
      ∧ favTruthy ((fun _ => none : Favorites) vase.id) = false
      ∧ ∃ w1 : World,
          handleFavoriteClick true (some alice) (fun _ => none) vase favWorld = (.ok (), w1)
            ∧ w1.calls = [(Call.setDoc "favorite" "u1_p1", true)]
            ∧ (w1.db.favorite "u1_p1").isSome = true
            ∧ w1.favorites "p1" = some false :=
  ⟨rfl, rfl, rfl, _, handleFavoriteClick_ok alice (fun _ => none) vase favWorld, rfl, rfl, rfl⟩

/-- C3, amended: for a logged-in user, when the `favorites` value captured by
the handler agrees with the live state at the product and the backend write is
accepted: if the product was marked favorite, the document
`favorite/<uid>_<productId>` is deleted and the flag becomes `false`; otherwise
that document is set to `{userId, productId, title, imgURL, price}` of the
product and the flag becomes `true`.  In both cases the handler issues exactly
one backend call, that write, and the flag after the click is the negation of
the flag before it. -/
theorem handleFavoriteClick_success (writeOk : Bool) (user : User) (favorites : Favorites)
    (product : Product) (w : World) (hok : writeOk = true)
    (hshown : favorites product.id = w.favorites product.id) :
    ∃ w1 : World,
      handleFavoriteClick writeOk (some user) favorites product w = (.ok (), w1)
        ∧ (if favTruthy (w.favorites product.id) then
            w1.db.favorite (docId user.uid product.id) = none
              ∧ w1.favorites product.id = some false
              ∧ w1.calls = w.calls ++ [(Call.deleteDoc "favorite" (docId user.uid product.id), true)]
          else
            w1.db.favorite (docId user.uid product.id)
                = some { userId := user.uid
                         productId := product.id
                         title := product.data.title
                         imgURL := product.data.imgURL
                         price := product.data.price }
              ∧ w1.favorites product.id = some true
              ∧ w1.calls = w.calls ++ [(Call.setDoc "favorite" (docId user.uid product.id), true)])
        ∧ favTruthy (w1.favorites product.id) = !favTruthy (w.favorites product.id) := by
  subst hok
  refine ⟨_, handleFavoriteClick_ok user favorites product w, ?_, ?_⟩
  · rw [hshown]
    cases hf : favTruthy (w.favorites product.id) <;> simp [setKey]
  · simp only [setKey, if_true]
    cases favTruthy (w.favorites product.id) <;> rfl

theorem handleFavoriteClick_success_witness :
    (true = true ∧ favWorld.favorites vase.id = favWorld.favorites vase.id)
      ∧ ∃ w1 : World,
          handleFavoriteClick true (some alice) favWorld.favorites vase favWorld = (.ok (), w1)
            ∧ w1.db.favorite "u1_p1" = none
            ∧ w1.favorites "p1" = some false
            ∧ w1.calls = [(Call.deleteDoc "favorite" "u1_p1", true)] := by
  refine ⟨⟨rfl, rfl⟩, ?_⟩
  obtain ⟨w1, h1, h2, _⟩ :=
    handleFavoriteClick_success true alice favWorld.favorites vase favWorld rfl rfl
  exact ⟨w1, h1, h2⟩

/-! ### The paths of handleAddToCart -/

theorem handleAddToCart_noUser (o : Outcomes) (id : String) (productData : Option Product)
    (w : World) :
    handleAddToCart o none id productData w =
      (.ok (), { w with toasts := w.toasts ++ [Toast.error "You must be logged in to add to cart"] }) :=
  rfl

theorem handleAddToCart_readFail (o : Outcomes) (user : User) (id : String)
    (productData : Option Product) (w : World) (h : (o.getCart && o.getProduct) = false) :
    handleAddToCart o (some user) id productData w =
      (.ok (),
        { w with
          toasts := w.toasts ++ [Toast.error "Failed to add to cart"]
          calls := w.calls ++
            [(Call.getDoc "Cart" (docId user.uid id), o.getCart),
             (Call.getDoc "Products" id, o.getProduct)]
          console := w.console ++ ["Add to cart error:"] }) := by
  rcases o with ⟨a, b, c, d⟩
  cases a <;> cases b <;> simp at h <;>
    simp [handleAddToCart, tryCatch, bind, Handler.bind, promiseAll2, getCartDoc,
      getProductDoc, toastError, consoleError, World.logCall]

theorem handleAddToCart_missing (o : Outcomes) (user : User) (id : String)
    (productData : Option Product) (w : World) (hc : o.getCart = true) (hg : o.getProduct = true)
    (hp : w.db.products id = none) :
    handleAddToCart o (some user) id productData w =
      (.ok (),
        { w with
          toasts := w.toasts ++ [Toast.error "Product no longer exists."]
          calls := w.calls ++
            [(Call.getDoc "Cart" (docId user.uid id), true), (Call.getDoc "Products" id, true)] }) := by
  simp [handleAddToCart, tryCatch, bind, Handler.bind, promiseAll2, getCartDoc,
    getProductDoc, toastError, consoleError, World.logCall, hc, hg, hp]

theorem handleAddToCart_outOfStock (o : Outcomes) (user : User) (id : String)
    (productData : Option Product) (w : World) (p : ProductData)
    (hc : o.getCart = true) (hg : o.getProduct = true)
    (hp : w.db.products id = some p) (hs : p.stock = 0) :
    handleAddToCart o (some user) id productData w =
      (.ok (),
        { w with
          toasts := w.toasts ++ [Toast.error "Out of stock"]
          calls := w.calls ++
            [(Call.getDoc "Cart" (docId user.uid id), true), (Call.getDoc "Products" id, true)] }) := by
  simp [handleAddToCart, tryCatch, bind, Handler.bind, promiseAll2, getCartDoc,
    getProductDoc, toastError, consoleError, World.logCall, hc, hg, hp, hs]

theorem handleAddToCart_cartWriteFail (o : Outcomes) (user : User) (id : String)
    (productData : Option Product) (w : World) (p : ProductData)
    (hc : o.getCart = true) (hg : o.getProduct = true)
    (hp : w.db.products id = some p) (hs : p.stock ≠ 0) (hw : o.cartWrite = false) :
    handleAddToCart o (some user) id productData w =
      (.ok (),
        { w with
          toasts := w.toasts ++ [Toast.error "Failed to add to cart"]
          calls := w.calls ++
            [(Call.getDoc "Cart" (docId user.uid id), true), (Call.getDoc "Products" id, true),
             (if (w.db.cart (docId user.uid id)).isSome then Call.updateDoc "Cart" (docId user.uid id)
              else Call.setDoc "Cart" (docId user.uid id), false)]
          console := w.console ++ ["Add to cart error:"] }) := by
  cases hcart : w.db.cart (docId user.uid id) <;>
    simp [handleAddToCart, tryCatch, bind, Handler.bind, promiseAll2, getCartDoc,
      getProductDoc, updateCartQuantity, setCartDoc, toastError, consoleError, World.logCall,
      hc, hg, hp, hs, hw, hcart]

theorem handleAddToCart_stockWriteFail (o : Outcomes) (user : User) (id : String)
    (productData : Option Product) (w : World) (p : ProductData)
    (hc : o.getCart = true) (hg : o.getProduct = true)
    (hp : w.db.products id = some p) (hs : p.stock ≠ 0) (hw : o.cartWrite = true)
    (hd : o.stockWrite = false) :
    handleAddToCart o (some user) id productData w =
      (.ok (),
        { w with
          db := { w.db with cart := cartAfterWrite user id productData w p }
          toasts := w.toasts ++ [Toast.error "Failed to add to cart"]
          calls := w.calls ++
            [(Call.getDoc "Cart" (docId user.uid id), true), (Call.getDoc "Products" id, true),
             (if (w.db.cart (docId user.uid id)).isSome then Call.updateDoc "Cart" (docId user.uid id)
              else Call.setDoc "Cart" (docId user.uid id), true),
             (Call.updateDoc "Products" id, false)]
          console := w.console ++ ["Add to cart error:"] }) := by
  cases hcart : w.db.cart (docId user.uid id) <;>
    simp [handleAddToCart, tryCatch, bind, Handler.bind, promiseAll2, getCartDoc,
      getProductDoc, updateCartQuantity, setCartDoc, decrementStock, toastError, consoleError,
      World.logCall, cartAfterWrite, hc, hg, hp, hs, hw, hd, hcart]

theorem handleAddToCart_allWritten (o : Outcomes) (user : User) (id : String)
    (productData : Option Product) (w : World) (p : ProductData)
    (hc : o.getCart = true) (hg : o.getProduct = true)
    (hp : w.db.products id = some p) (hs : p.stock ≠ 0) (hw : o.cartWrite = true)
    (hd : o.stockWrite = true) :
    handleAddToCart o (some user) id productData w =
      (.ok (),
        { w with
          db := { w.db with
                  cart := cartAfterWrite user id productData w p
                  products := setKey w.db.products id { p with stock := p.stock + (-1) } }
          toasts := w.toasts ++
            [if (w.db.cart (docId user.uid id)).isSome then Toast.success "Quantity increased in cart"
             else Toast.success "Added to cart"]
          calls := w.calls ++
            [(Call.getDoc "Cart" (docId user.uid id), true), (Call.getDoc "Products" id, true),
             (if (w.db.cart (docId user.uid id)).isSome then Call.updateDoc "Cart" (docId user.uid id)
              else Call.setDoc "Cart" (docId user.uid id), true),
             (Call.updateDoc "Products" id, true)] }) := by
  cases hcart : w.db.cart (docId user.uid id) <;>
    simp [handleAddToCart, tryCatch, bind, Handler.bind, promiseAll2, getCartDoc,
      getProductDoc, updateCartQuantity, setCartDoc, decrementStock, toastSuccess, toastError,
      consoleError, World.logCall, cartAfterWrite, hc, hg, hp, hs, hw, hd, hcart]

/-- C4: for a logged-in user and an existing product whose stock is not `0`,
when every backend call is answered the handler completes, the product's stock
is lower by exactly `1`, the cart document `Cart/<uid>_<productId>` has its
quantity raised by exactly `1` when it existed and is otherwise created with
quantity `1`, `userId = uid` and `productId = id`, and no other document of the
`Cart`, `Products` or `favorite` collections changes. -/
theorem handleAddToCart_success (o : Outcomes) (user : User) (id : String)
    (productData : Option Product) (w : World) (p : ProductData)
    (hall : o = allOk) (hp : w.db.products id = some p) (hs : p.stock ≠ 0) :
    ∃ w1 : World,
      handleAddToCart o (some user) id productData w = (.ok (), w1)
        ∧ w1.db.products id = some { p with stock := p.stock - 1 }
        ∧ (match w.db.cart (docId user.uid id) with
            | some c =>
                w1.db.cart (docId user.uid id)
                  = some { c with quantity := c.quantity + 1, updatedAt := some w.now }
            | none =>
                ∃ c1 : CartDoc,
                  w1.db.cart (docId user.uid id) = some c1
                    ∧ c1.quantity = 1 ∧ c1.userId = user.uid ∧ c1.productId = id)
        ∧ (∀ k, k ≠ docId user.uid id → w1.db.cart k = w.db.cart k)
        ∧ (∀ k, k ≠ id → w1.db.products k = w.db.products k)
        ∧ w1.db.favorite = w.db.favorite := by
  subst hall
  refine ⟨_, handleAddToCart_allWritten allOk user id productData w p rfl rfl hp hs rfl rfl,
    ?_, ?_, ?_, ?_, rfl⟩
  · simp [setKey, sub_eq_add_neg]
  · cases hc : w.db.cart (docId user.uid id) with
    | some c => simp [cartAfterWrite, hc, setKey]
    | none => exact ⟨newCartDoc user id p productData, by simp [cartAfterWrite, hc, setKey], rfl, rfl, rfl⟩
  · intro k hk
    cases hc : w.db.cart (docId user.uid id) <;> simp [cartAfterWrite, hc, setKey, hk]
  · intro k hk
    simp [setKey, hk]

theorem handleAddToCart_success_witness :
    (allOk = allOk ∧ shopWorld.db.products "p1" = some vaseData ∧ vaseData.stock ≠ 0)
      ∧ ∃ w1 : World,
          handleAddToCart allOk (some alice) "p1" (some vase) shopWorld = (.ok (), w1)
            ∧ w1.db.products "p1" = some { vaseData with stock := 0 }
            ∧ ∃ c1 : CartDoc,
                w1.db.cart "u1_p1" = some c1
                  ∧ c1.quantity = 1 ∧ c1.userId = "u1" ∧ c1.productId = "p1" := by
  refine ⟨⟨rfl, rfl, by decide⟩, ?_⟩
  obtain ⟨w1, h1, h2, h3, _⟩ :=
    handleAddToCart_success allOk alice "p1" (some vase) shopWorld vaseData rfl rfl (by decide)
  exact ⟨w1, h1, h2, h3⟩

/-- C5 as stated fails: a user is logged in, the product document
`Products/gone` does not exist and its read is answered, but the read of the
cart document is rejected; `Promise.all` is rejected, and the one notification
is "Failed to add to cart", not "Product no longer exists.". -/
theorem handleAddToCart_guards_counterexample :
    shopWorld.db.products "gone" = none
      ∧ (handleAddToCart cartReadRejected (some alice) "gone" none shopWorld).2.calls
          = [(Call.getDoc "Cart" "u1_gone", false), (Call.getDoc "Products" "gone", true)]
      ∧ (handleAddToCart cartReadRejected (some alice) "gone" none shopWorld).2.toasts
          = [Toast.error "Failed to add to cart"]
      ∧ (handleAddToCart cartReadRejected (some alice) "gone" none shopWorld).2.toasts
          ≠ [Toast.error "Product no longer exists."] := by
  rw [handleAddToCart_readFail cartReadRejected alice "gone" none shopWorld rfl]
  exact ⟨rfl, rfl, rfl, by decide⟩

/-- C5, amended: if no user is logged in, or the product document does not
exist, or the product's stock equals `0`, then `handleAddToCart` completes, the
store is unchanged, every backend call it made is a read, and it reports
exactly one notification, an error: "You must be logged in to add to cart"
without a user; with a user, "Product no longer exists." or "Out of stock"
respectively when both reads are answered, and "Failed to add to cart" when a
read is rejected. -/
theorem handleAddToCart_guards (o : Outcomes) (user : Option User) (id : String)
    (productData : Option Product) (w : World)
    (hguard : user = none ∨ w.db.products id = none
      ∨ ∃ p : ProductData, w.db.products id = some p ∧ p.stock = 0) :
    ∃ (w1 : World) (reads : List (Call × Bool)),
      handleAddToCart o user id productData w = (.ok (), w1)
        ∧ w1.db = w.db
        ∧ w1.calls = w.calls ++ reads
        ∧ (∀ c ∈ reads, c.1.isWrite = false)
        ∧ w1.toasts = w.toasts ++
            [Toast.error
              (match user with
                | none => "You must be logged in to add to cart"
                | some _ =>
                  if (o.getCart && o.getProduct) = true then
                    match w.db.products id with
                    | none => "Product no longer exists."
                    | some _ => "Out of stock"
                  else "Failed to add to cart")] := by
  cases user with
  | none => exact ⟨_, [], handleAddToCart_noUser o id productData w, rfl, by simp, by simp, rfl⟩
  | some u =>
    cases hr : (o.getCart && o.getProduct) with
    | false =>
      refine ⟨_, _, handleAddToCart_readFail o u id productData w hr, rfl, rfl, ?_, ?_⟩
      · simp [Call.isWrite]
      · simp
    | true =>
      have hc : o.getCart = true := by cases h : o.getCart <;> simp_all
      have hg : o.getProduct = true := by cases h : o.getProduct <;> simp_all
      rcases hguard with h | h | ⟨p, hp, hs⟩
      · cases h
      · refine ⟨_, _, handleAddToCart_missing o u id productData w hc hg h, rfl, rfl, ?_, ?_⟩
        · simp [Call.isWrite]
        · simp [h]
      · refine ⟨_, _, handleAddToCart_outOfStock o u id productData w p hc hg hp hs, rfl, rfl,
          ?_, ?_⟩
        · simp [Call.isWrite]
        · simp [hp]

theorem handleAddToCart_guards_witness :
    (some alice = none ∨ shopWorld.db.products "gone" = none
        ∨ ∃ p : ProductData, shopWorld.db.products "gone" = some p ∧ p.stock = 0)
      ∧ ∃ (w1 : World) (reads : List (Call × Bool)),
          handleAddToCart allOk (some alice) "gone" none shopWorld = (.ok (), w1)
            ∧ w1.db = shopWorld.db
            ∧ w1.calls = reads
            ∧ (∀ c ∈ reads, c.1.isWrite = false)
            ∧ w1.toasts = [Toast.error "Product no longer exists."] :=
  ⟨Or.inr (Or.inl rfl),
    handleAddToCart_guards allOk (some alice) "gone" none shopWorld (Or.inr (Or.inl rfl))⟩

theorem handleFavoriteClick_noUser (writeOk : Bool) (favorites : Favorites) (product : Product)
    (w : World) :
    handleFavoriteClick writeOk none favorites product w =
      (.ok (), { w with toasts := w.toasts ++ [Toast.error "You must be logged in to manage favorites"] }) :=
  rfl

/-- The calls and notifications of one `handleFavoriteClick` run. -/
theorem handleFavoriteClick_effects (writeOk : Bool) (user : Option User) (favorites : Favorites)
    (product : Product) (w : World) :
    ∃ (w1 : World) (calls : List (Call × Bool)) (toasts : List Toast),
      handleFavoriteClick writeOk user favorites product w = (.ok (), w1)
        ∧ w1.calls = w.calls ++ calls
        ∧ w1.toasts = w.toasts ++ toasts
        ∧ (calls.map Prod.fst).Nodup
        ∧ ((∃ c ∈ calls, c.2 = false) → toasts = [Toast.error "Something went wrong."]) := by
  cases user with
  | none =>
    exact ⟨_, [], _, handleFavoriteClick_noUser writeOk favorites product w, by simp, rfl,
      by simp, by simp⟩
  | some u =>
    cases writeOk with
    | false =>
      exact ⟨_, _, _, handleFavoriteClick_fail u favorites product w, rfl, rfl, by simp,
        fun _ => rfl⟩
    | true =>
      refine ⟨_, _, _, handleFavoriteClick_ok u favorites product w, rfl, rfl, by simp, ?_⟩
      rintro ⟨c, hc, hf⟩
      cases hfav : favTruthy (favorites product.id) <;> simp [hfav] at hc <;> simp [hc] at hf

/-- The calls and notifications of one `handleAddToCart` run. -/
theorem handleAddToCart_effects (o : Outcomes) (user : Option User) (id : String)
    (productData : Option Product) (w : World) :
    ∃ (w1 : World) (calls : List (Call × Bool)) (toasts : List Toast),
      handleAddToCart o user id productData w = (.ok (), w1)
        ∧ w1.calls = w.calls ++ calls
        ∧ w1.toasts = w.toasts ++ toasts
        ∧ (calls.map Prod.fst).Nodup
        ∧ ((∃ c ∈ calls, c.2 = false) → toasts = [Toast.error "Failed to add to cart"]) := by
  cases user with
  | none =>
    exact ⟨_, [], _, handleAddToCart_noUser o id productData w, by simp, rfl, by simp, by simp⟩
  | some u =>
    cases hr : (o.getCart && o.getProduct) with
    | false =>
      exact ⟨_, _, _, handleAddToCart_readFail o u id productData w hr, rfl, rfl, by simp,
        fun _ => rfl⟩
    | true =>
      have hc : o.getCart = true := by cases h : o.getCart <;> simp_all
      have hg : o.getProduct = true := by cases h : o.getProduct <;> simp_all
      cases hp : w.db.products id with
      | none =>
        exact ⟨_, _, _, handleAddToCart_missing o u id productData w hc hg hp, rfl, rfl,
          by simp, by simp⟩
      | some p =>
        by_cases hs : p.stock = 0
        · exact ⟨_, _, _, handleAddToCart_outOfStock o u id productData w p hc hg hp hs, rfl,
            rfl, by simp, by simp⟩
        · cases hw : o.cartWrite with
          | false =>
            refine ⟨_, _, _, handleAddToCart_cartWriteFail o u id productData w p hc hg hp hs hw,
              rfl, rfl, ?_, fun _ => rfl⟩
            cases (w.db.cart (docId u.uid id)).isSome <;> simp
          | true =>
            cases hd : o.stockWrite with
            | false =>
              refine ⟨_, _, _,
                handleAddToCart_stockWriteFail o u id productData w p hc hg hp hs hw hd,
                rfl, rfl, ?_, fun _ => rfl⟩
              cases (w.db.cart (docId u.uid id)).isSome <;> simp
            | true =>
              refine ⟨_, _, _,
                handleAddToCart_allWritten o u id productData w p hc hg hp hs hw hd,
                rfl, rfl, ?_, ?_⟩
              · cases (w.db.cart (docId u.uid id)).isSome <;> simp
              · simp

/-- C7: whatever the backend answers, `handleFavoriteClick` and
`handleAddToCart` complete without throwing; when a backend call of the run was
rejected the run emits exactly one notification, an error; and no backend call
is attempted twice in one run. -/
theorem handlers_catch_and_never_retry :
    (∀ (writeOk : Bool) (user : Option User) (favorites : Favorites) (product : Product)
        (w : World),
        ∃ (w1 : World) (calls : List (Call × Bool)) (toasts : List Toast),
          handleFavoriteClick writeOk user favorites product w = (.ok (), w1)
            ∧ w1.calls = w.calls ++ calls
            ∧ w1.toasts = w.toasts ++ toasts
            ∧ (calls.map Prod.fst).Nodup
            ∧ ((∃ c ∈ calls, c.2 = false) → toasts = [Toast.error "Something went wrong."]))
      ∧ (∀ (o : Outcomes) (user : Option User) (id : String) (productData : Option Product)
          (w : World),
          ∃ (w1 : World) (calls : List (Call × Bool)) (toasts : List Toast),
            handleAddToCart o user id productData w = (.ok (), w1)
              ∧ w1.calls = w.calls ++ calls
              ∧ w1.toasts = w.toasts ++ toasts
              ∧ (calls.map Prod.fst).Nodup
              ∧ ((∃ c ∈ calls, c.2 = false) → toasts = [Toast.error "Failed to add to cart"])) :=
  ⟨handleFavoriteClick_effects, handleAddToCart_effects⟩

theorem handlers_catch_and_never_retry_witness :
    ∃ w1 : World,
      handleAddToCart productReadRejected (some alice) "p1" none shopWorld = (.ok (), w1)
        ∧ (∃ c ∈ w1.calls, c.2 = false)
        ∧ w1.toasts = [Toast.error "Failed to add to cart"] := by
  obtain ⟨w1, calls, toasts, h1, h2, h3, _, h5⟩ :=
    handlers_catch_and_never_retry.2 productReadRejected (some alice) "p1" none shopWorld
  have e := handleAddToCart_readFail productReadRejected alice "p1" none shopWorld rfl
  rw [e] at h1
  have hw := (Prod.mk.inj h1).2
  subst hw
  have hc : calls = [(Call.getDoc "Cart" "u1_p1", true), (Call.getDoc "Products" "p1", false)] := by
    have : [(Call.getDoc "Cart" "u1_p1", true), (Call.getDoc "Products" "p1", false)]
        = ([] : List (Call × Bool)) ++ calls := h2
    simpa using this.symm
  have hrej : ∃ c ∈ calls, c.2 = false := ⟨(Call.getDoc "Products" "p1", false), by simp [hc], rfl⟩
  refine ⟨_, e, ?_, ?_⟩
  · exact ⟨(Call.getDoc "Products" "p1", false), List.mem_cons_of_mem _ (List.mem_singleton.mpr rfl), rfl⟩
  · have ht := h5 hrej
    rw [ht] at h3
    exact h3

/-- Three uninterrupted steps of a run are one call of `handleAddToCart`. -/
theorem cartRun_steps_eq_handleAddToCart (o : Outcomes) (user : User) (id : String)
    (productData : Option Product) (w : World) :
    CartRun.steps o user id productData 3 CartRun.start w
      = (CartRun.done, (handleAddToCart o (some user) id productData w).2) := by
  rcases o with ⟨a, b, c, d⟩
  cases hp : w.db.products id with
  | none =>
    cases a <;> cases b <;>
      simp [CartRun.steps, CartRun.step, cartCatch, handleAddToCart, tryCatch, bind, pure,
        Handler.bind, Handler.pure, promiseAll2, getCartDoc, getProductDoc, toastError,
        consoleError, World.logCall, hp]
  | some p =>
    by_cases hs : p.stock = 0
    · cases a <;> cases b <;>
        simp [CartRun.steps, CartRun.step, cartCatch, handleAddToCart, tryCatch, bind, pure,
          Handler.bind, Handler.pure, promiseAll2, getCartDoc, getProductDoc, toastError,
          consoleError, World.logCall, hp, hs]
    · cases hc : w.db.cart (docId user.uid id) <;>
        cases a <;> cases b <;> cases c <;> cases d <;>
        simp [CartRun.steps, CartRun.step, cartCatch, handleAddToCart, tryCatch, bind, pure,
          Handler.bind, Handler.pure, promiseAll2, getCartDoc, getProductDoc,
          updateCartQuantity, setCartDoc, decrementStock, toastSuccess, toastError,
          consoleError, World.logCall, setKey, hp, hs, hc]

/-- C6: there is an interleaving of two `handleAddToCart` runs on one product
with stock `1` in which both runs read stock `1` and pass the `stock === 0`
check before either writes, both apply `increment(-1)`, and the stock ends at
`-1`. -/
theorem addToCart_stock_race :
    ∃ turns : List Turn,
      raceStart.world.db.products "p1" = some vaseData ∧ vaseData.stock = 1
        ∧ (TwoRuns.exec aliceAddsVase bobAddsVase raceStart (turns.take 2)).runA
            = CartRun.afterReads none vaseData
        ∧ (TwoRuns.exec aliceAddsVase bobAddsVase raceStart (turns.take 2)).runB
            = CartRun.afterReads none vaseData
        ∧ (TwoRuns.exec aliceAddsVase bobAddsVase raceStart (turns.take 2)).world.db.products "p1"
            = some vaseData
        ∧ (TwoRuns.exec aliceAddsVase bobAddsVase raceStart turns).runA = CartRun.done
        ∧ (TwoRuns.exec aliceAddsVase bobAddsVase raceStart turns).runB = CartRun.done
        ∧ ((TwoRuns.exec aliceAddsVase bobAddsVase raceStart turns).world.calls.filter
              (fun c => decide (c = (Call.updateDoc "Products" "p1", true)))).length = 2
        ∧ (TwoRuns.exec aliceAddsVase bobAddsVase raceStart turns).world.db.products "p1"
            = some { vaseData with stock := -1 } :=
  ⟨[.a, .b, .a, .a, .b, .b], rfl, rfl, rfl, rfl, rfl, rfl, rfl, rfl, rfl⟩

/-- The store after a run of `handleAddToCart` whose cart write was accepted and
whose stock write was rejected: the cart document is written, the `Products`
collection is as before. -/
theorem handleAddToCart_partial (o : Outcomes) (user : User) (id : String)
    (productData : Option Product) (w : World) (p : ProductData)
    (hc : o.getCart = true) (hg : o.getProduct = true)
    (hp : w.db.products id = some p) (hs : p.stock ≠ 0) (hw : o.cartWrite = true)
    (hd : o.stockWrite = false) :
    (handleAddToCart o (some user) id productData w).2.db.products = w.db.products
      ∧ (handleAddToCart o (some user) id productData w).2.db.cart (docId user.uid id)
          = (match w.db.cart (docId user.uid id) with
              | some c => some { c with quantity := c.quantity + 1, updatedAt := some w.now }
              | none => some (newCartDoc user id p productData)) := by
  rw [handleAddToCart_stockWriteFail o user id productData w p hc hg hp hs hw hd]
  refine ⟨rfl, ?_⟩
  cases hcart : w.db.cart (docId user.uid id) <;> simp [cartAfterWrite, hcart, setKey]

/-- A run of `handleAddToCart` that changed the product document went through
the accepted cart write first. -/
theorem handleAddToCart_stock_changed (o : Outcomes) (user : Option User) (id : String)
    (productData : Option Product) (w : World)
    (hch : (handleAddToCart o user id productData w).2.db.products id ≠ w.db.products id) :
    ∃ (u : User) (p : ProductData),
      user = some u ∧ w.db.products id = some p ∧ p.stock ≠ 0
        ∧ o.getCart = true ∧ o.getProduct = true ∧ o.cartWrite = true ∧ o.stockWrite = true := by
  cases user with
  | none =>
    rw [handleAddToCart_noUser] at hch
    exact absurd rfl hch
  | some u =>
    cases hr : (o.getCart && o.getProduct) with
    | false =>
      rw [handleAddToCart_readFail o u id productData w hr] at hch
      exact absurd rfl hch
    | true =>
      have hc : o.getCart = true := by cases h : o.getCart <;> simp_all
      have hg : o.getProduct = true := by cases h : o.getProduct <;> simp_all
      cases hp : w.db.products id with
      | none =>
        rw [handleAddToCart_missing o u id productData w hc hg hp] at hch
        exact absurd rfl hch
      | some p =>
        by_cases hs : p.stock = 0
        · rw [handleAddToCart_outOfStock o u id productData w p hc hg hp hs] at hch
          exact absurd rfl hch
        · cases hw : o.cartWrite with
          | false =>
            rw [handleAddToCart_cartWriteFail o u id productData w p hc hg hp hs hw] at hch
            exact absurd rfl hch
          | true =>
            cases hd : o.stockWrite with
            | false =>
              rw [handleAddToCart_stockWriteFail o u id productData w p hc hg hp hs hw hd] at hch
              exact absurd rfl hch
            | true => exact ⟨u, p, rfl, rfl, hs, hc, hg, rfl, rfl⟩

/-- C11: `handleAddToCart` is not all-or-nothing.  There is an execution, with
the cart `setDoc` accepted and the following `updateDoc` on the product
rejected, after which the cart entry is created while the product document is
unchanged, and one, with the cart `updateDoc` accepted, after which the cart
quantity is higher by `1` while the product document is unchanged; this is what
happens in every execution whose cart write is accepted and whose stock write
is rejected.  Conversely, in every execution that changed the product document
the stock is lower by `1`, and the cart write was issued and accepted before
the stock write. -/
theorem handleAddToCart_not_all_or_nothing :
    (∃ (w1 : World) (c1 : CartDoc),
        handleAddToCart stockWriteRejected (some alice) "p1" (some vase) shopWorld = (.ok (), w1)
          ∧ w1.calls =
              [(Call.getDoc "Cart" "u1_p1", true), (Call.getDoc "Products" "p1", true),
               (Call.setDoc "Cart" "u1_p1", true), (Call.updateDoc "Products" "p1", false)]
          ∧ shopWorld.db.cart "u1_p1" = none
          ∧ w1.db.cart "u1_p1" = some c1 ∧ c1.quantity = 1
          ∧ w1.db.products "p1" = shopWorld.db.products "p1")
      ∧ (∃ (w1 : World) (c c1 : CartDoc),
          handleAddToCart stockWriteRejected (some alice) "p1" (some vase) cartWorld = (.ok (), w1)
            ∧ w1.calls =
                [(Call.getDoc "Cart" "u1_p1", true), (Call.getDoc "Products" "p1", true),
                 (Call.updateDoc "Cart" "u1_p1", true), (Call.updateDoc "Products" "p1", false)]
            ∧ cartWorld.db.cart "u1_p1" = some c
            ∧ w1.db.cart "u1_p1" = some c1 ∧ c1.quantity = c.quantity + 1
            ∧ w1.db.products "p1" = cartWorld.db.products "p1")
      ∧ (∀ (o : Outcomes) (user : User) (id : String) (productData : Option Product) (w : World)
          (p : ProductData),
          o.getCart = true → o.getProduct = true → w.db.products id = some p → p.stock ≠ 0 →
          o.cartWrite = true → o.stockWrite = false →
            (handleAddToCart o (some user) id productData w).2.db.products = w.db.products
              ∧ (handleAddToCart o (some user) id productData w).2.db.cart (docId user.uid id)
                  = (match w.db.cart (docId user.uid id) with
                      | some c =>
                          some { c with quantity := c.quantity + 1, updatedAt := some w.now }
                      | none => some (newCartDoc user id p productData)))
      ∧ (∀ (o : Outcomes) (user : Option User) (id : String) (productData : Option Product)
          (w : World),
          (handleAddToCart o user id productData w).2.db.products id ≠ w.db.products id →
            ∃ (u : User) (p : ProductData),
              user = some u ∧ w.db.products id = some p
                ∧ (handleAddToCart o user id productData w).2.db.products id
                    = some { p with stock := p.stock - 1 }
                ∧ (handleAddToCart o user id productData w).2.calls =
                    w.calls ++
                      [(Call.getDoc "Cart" (docId u.uid id), true),
                       (Call.getDoc "Products" id, true),
                       (if (w.db.cart (docId u.uid id)).isSome then
                          Call.updateDoc "Cart" (docId u.uid id)
                        else Call.setDoc "Cart" (docId u.uid id), true),
                       (Call.updateDoc "Products" id, true)]
                ∧ (handleAddToCart o user id productData w).2.db.cart (docId u.uid id)
                    = (match w.db.cart (docId u.uid id) with
                        | some c =>
                            some { c with quantity := c.quantity + 1, updatedAt := some w.now }
                        | none => some (newCartDoc u id p productData))) := by
  refine ⟨?_, ?_, ?_, ?_⟩
  · refine ⟨_, _,
      handleAddToCart_stockWriteFail stockWriteRejected alice "p1" (some vase) shopWorld vaseData
        rfl rfl rfl (by decide) rfl rfl, rfl, rfl, rfl, rfl, rfl⟩
  · refine ⟨_, _, _,
      handleAddToCart_stockWriteFail stockWriteRejected alice "p1" (some vase) cartWorld vaseData
        rfl rfl rfl (by decide) rfl rfl, rfl, rfl, rfl, rfl, rfl⟩
  · intro o user id productData w p hc hg hp hs hw hd
    exact handleAddToCart_partial o user id productData w p hc hg hp hs hw hd
  · intro o user id productData w hch
    obtain ⟨u, p, hu, hp, hs, hc, hg, hw, hd⟩ :=
      handleAddToCart_stock_changed o user id productData w hch
    subst hu
    refine ⟨u, p, rfl, hp, ?_⟩
    rw [handleAddToCart_allWritten o u id productData w p hc hg hp hs hw hd]
    refine ⟨by simp [setKey, sub_eq_add_neg], rfl, ?_⟩
    cases hcart : w.db.cart (docId u.uid id) <;> simp [cartAfterWrite, hcart, setKey]

theorem handleAddToCart_not_all_or_nothing_witness :
    (allOk.getCart = true ∧ allOk.getProduct = true ∧ cartWorld.db.products "p1" = some vaseData
        ∧ vaseData.stock ≠ 0 ∧ stockWriteRejected.cartWrite = true
        ∧ stockWriteRejected.stockWrite = false)
      ∧ (handleAddToCart stockWriteRejected (some alice) "p1" (some vase) cartWorld).2.db.products
          = cartWorld.db.products
      ∧ (handleAddToCart allOk (some alice) "p1" (some vase) shopWorld).2.db.products "p1"
          ≠ shopWorld.db.products "p1"
      ∧ ∃ (u : User) (p : ProductData),
          some alice = some u ∧ shopWorld.db.products "p1" = some p
            ∧ (handleAddToCart allOk (some alice) "p1" (some vase) shopWorld).2.db.products "p1"
                = some { p with stock := p.stock - 1 } := by
  have hch : (handleAddToCart allOk (some alice) "p1" (some vase) shopWorld).2.db.products "p1"
      ≠ shopWorld.db.products "p1" := by
    rw [handleAddToCart_allWritten allOk alice "p1" (some vase) shopWorld vaseData
      rfl rfl rfl (by decide) rfl rfl]
    intro h
    have h2 := congrArg (fun d => d.map ProductData.stock) h
    revert h2
    decide
  refine ⟨⟨rfl, rfl, rfl, by decide, rfl, rfl⟩, ?_, hch, ?_⟩
  · exact (handleAddToCart_not_all_or_nothing.2.2.1 stockWriteRejected alice "p1" (some vase)
      cartWorld vaseData rfl rfl rfl (by decide) rfl rfl).1
  · obtain ⟨u, p, h1, h2, h3, _⟩ :=
      handleAddToCart_not_all_or_nothing.2.2.2 allOk (some alice) "p1" (some vase) shopWorld hch
    exact ⟨u, p, h1, h2, h3⟩

end VendorHome

namespace UsersPage

theorem includes_iff (s t : String) : includes s t = true ↔ containsText s t := by
  unfold includes containsText
  rw [List.any_eq_true]
  constructor
  · rintro ⟨rest, hrest, hpre⟩
    rw [List.mem_tails] at hrest
    rw [List.isPrefixOf_iff_prefix] at hpre
    obtain ⟨before, hb⟩ := hrest
    obtain ⟨after, ha⟩ := hpre
    exact ⟨before, after, by rw [← hb, ← ha, List.append_assoc]⟩
  · rintro ⟨before, after, h⟩
    refine ⟨t.data ++ after, ?_, ?_⟩
    · rw [List.mem_tails]
      exact ⟨before, by rw [h, List.append_assoc]⟩
    · rw [List.isPrefixOf_iff_prefix]
      exact ⟨after, rfl⟩

theorem matchesSearch_iff (toLowerCase : String → String) (term : String)
    (user : UserRecord) :
    matchesSearch toLowerCase (toLowerCase term) user = true
      ↔ matchesSpec toLowerCase term user := by
  unfold matchesSearch matchesSpec
  cases user.displayName <;> cases user.email <;> simp [includes_iff]

theorem isWhiteSpace_iff (c : Char) : isWhiteSpace c = true ↔ IsSpace c := by
  unfold isWhiteSpace IsSpace whiteSpaceCodes
  simp only [Bool.or_eq_true, Bool.and_eq_true, beq_iff_eq, decide_eq_true_eq, List.mem_cons,
    List.mem_singleton, List.not_mem_nil, or_false]
  omega

theorem dropWhile_eq_self {α : Type} (p : α → Bool) (l : List α)
    (h : ∀ c, l.head? = some c → p c = false) : l.dropWhile p = l := by
  cases l with
  | nil => rfl
  | cons a t =>
    have ha : p a = false := h a rfl
    simp [List.dropWhile, ha]

/-- Stripping both ends gives back the middle of a text written as a run of
stripped characters, a middle that neither starts nor ends with one, and
another run of stripped characters. -/
theorem strip_of_decomposition {α : Type} (p : α → Bool) (before t after : List α)
    (hb : ∀ c ∈ before, p c = true) (ha : ∀ c ∈ after, p c = true)
    (hh : ∀ c, t.head? = some c → p c = false) (hl : ∀ c, t.getLast? = some c → p c = false) :
    (((before ++ t ++ after).dropWhile p).reverse.dropWhile p).reverse = t := by
  rw [List.append_assoc, List.dropWhile_append_of_pos hb]
  by_cases ht : t = []
  · subst ht
    have h1 : ([] ++ after).dropWhile p = [] := by
      rw [List.nil_append, List.dropWhile_eq_nil_iff]
      exact ha
    rw [h1]
    rfl
  · have h1 : (t ++ after).dropWhile p = t ++ after := by
      apply dropWhile_eq_self
      intro c hc
      rw [List.head?_append_of_ne_nil t ht] at hc
      exact hh c hc
    rw [h1, List.reverse_append,
      List.dropWhile_append_of_pos (fun c hc => ha c (List.mem_reverse.mp hc))]
    have h2 : t.reverse.dropWhile p = t.reverse := by
      apply dropWhile_eq_self
      intro c hc
      rw [List.head?_reverse] at hc
      exact hl c hc
    rw [h2, List.reverse_reverse]

/-- Stripping both ends leaves a text that neither starts nor ends with a
stripped character, between two runs of stripped characters. -/
theorem strip_decomposition {α : Type} (p : α → Bool) (l : List α) :
    ∃ before after : List α,
      l = before ++ ((l.dropWhile p).reverse.dropWhile p).reverse ++ after
        ∧ (∀ c ∈ before, p c = true) ∧ (∀ c ∈ after, p c = true)
        ∧ (∀ c, (((l.dropWhile p).reverse.dropWhile p).reverse).head? = some c → p c = false)
        ∧ (∀ c, (((l.dropWhile p).reverse.dropWhile p).reverse).getLast? = some c →
            p c = false) := by
  refine ⟨l.takeWhile p, ((l.dropWhile p).reverse.takeWhile p).reverse, ?_, ?_, ?_, ?_, ?_⟩
  · have h1 := List.takeWhile_append_dropWhile p (l.dropWhile p).reverse
    have h2 : l.dropWhile p
        = ((l.dropWhile p).reverse.dropWhile p).reverse
            ++ ((l.dropWhile p).reverse.takeWhile p).reverse := by
      rw [← List.reverse_append, h1, List.reverse_reverse]
    rw [List.append_assoc, ← h2, List.takeWhile_append_dropWhile]
  · intro c hc
    exact List.mem_takeWhile_imp hc
  · intro c hc
    exact List.mem_takeWhile_imp (List.mem_reverse.mp hc)
  · intro c hc
    by_cases ht : ((l.dropWhile p).reverse.dropWhile p).reverse = []
    · rw [ht] at hc
      cases hc
    · have h1 := List.takeWhile_append_dropWhile p (l.dropWhile p).reverse
      have h2 : l.dropWhile p
          = ((l.dropWhile p).reverse.dropWhile p).reverse
              ++ ((l.dropWhile p).reverse.takeWhile p).reverse := by
        rw [← List.reverse_append, h1, List.reverse_reverse]
      have h3 : (l.dropWhile p).head? = some c := by
        rw [h2, List.head?_append_of_ne_nil _ ht]
        exact hc
      have h4 := List.head?_dropWhile_not p l
      rw [h3] at h4
      exact h4
  · intro c hc
    rw [List.getLast?_reverse] at hc
    have h4 := List.head?_dropWhile_not p (l.dropWhile p).reverse
    rw [hc] at h4
    exact h4

theorem isWhiteSpace_false_iff (c : Char) : isWhiteSpace c = false ↔ ¬ IsSpace c := by
  rw [← isWhiteSpace_iff]
  simp

/-- The `trim` of the code gives the trimmed text of the specification. -/
theorem trim_trimmedFrom (s : String) : TrimmedFrom s (trim s) := by
  obtain ⟨before, after, h1, h2, h3, h4, h5⟩ := strip_decomposition isWhiteSpace s.data
  refine ⟨before, after, h1, ?_, ?_, ?_, ?_⟩
  · intro c hc
    exact (isWhiteSpace_iff c).mp (h2 c hc)
  · intro c hc
    exact (isWhiteSpace_iff c).mp (h3 c hc)
  · intro c hc
    exact (isWhiteSpace_false_iff c).mp (h4 c hc)
  · intro c hc
    exact (isWhiteSpace_false_iff c).mp (h5 c hc)

/-- The trimmed text of the specification is unique: it is the `trim` of the code. -/
theorem trimmedFrom_eq_trim (s t : String) (h : TrimmedFrom s t) : t = trim s := by
  obtain ⟨before, after, h1, h2, h3, h4, h5⟩ := h
  have := strip_of_decomposition isWhiteSpace before t.data after
    (fun c hc => (isWhiteSpace_iff c).mpr (h2 c hc))
    (fun c hc => (isWhiteSpace_iff c).mpr (h3 c hc))
    (fun c hc => (isWhiteSpace_false_iff c).mpr (h4 c hc))
    (fun c hc => (isWhiteSpace_false_iff c).mpr (h5 c hc))
  unfold trim
  rw [h1, this]

theorem trim_eq_empty_iff (s : String) : trim s = "" ↔ onlyWhiteSpace s := by
  constructor
  · intro h
    obtain ⟨before, after, h1, h2, h3, _, _⟩ := trim_trimmedFrom s
    rw [h] at h1
    intro c hc
    rw [h1] at hc
    simp only [String.data, List.append_nil, List.mem_append] at hc
    rcases hc with hc | hc
    · exact h2 c hc
    · exact h3 c hc
  · intro h
    symm
    apply trimmedFrom_eq_trim
    exact ⟨s.data, [], by simp, h, by simp, by simp, by simp⟩

/-- C8: after the search effect runs, `filteredUsers` is the list of the users,
in their original order, whose lower-cased `displayName` or lower-cased `email`
contains the lower-cased trimmed search text, the trimmed text being the search
text without the white space at its two ends (a user lacking both fields never
matches); when the search text is empty or only white space, `filteredUsers` is
the full `users` list. -/
theorem searchEffect_filteredUsers (toLowerCase : String → String) (s : PageState)
    (hlower : ∀ t : String, toLowerCase t = "" ↔ t = "") :
    (∃ term : String, TrimmedFrom s.searchTerm term)
      ∧ (∀ term : String, TrimmedFrom s.searchTerm term → ¬ onlyWhiteSpace s.searchTerm →
          (searchEffect toLowerCase s).filteredUsers
            = s.users.filter (fun u => decide (matchesSpec toLowerCase term u)))
      ∧ (onlyWhiteSpace s.searchTerm → (searchEffect toLowerCase s).filteredUsers = s.users)
      ∧ (¬ onlyWhiteSpace s.searchTerm →
          ∀ u : UserRecord, u.displayName = none → u.email = none →
            u ∉ (searchEffect toLowerCase s).filteredUsers) := by
  have hnone : ∀ u : UserRecord, u.displayName = none → u.email = none →
      matchesSearch toLowerCase (toLowerCase (trim s.searchTerm)) u = false := by
    intro u hn he
    simp [matchesSearch, hn, he]
  refine ⟨⟨trim s.searchTerm, trim_trimmedFrom s.searchTerm⟩, ?_, ?_, ?_⟩
  · intro term hterm hw
    have hterm' := trimmedFrom_eq_trim s.searchTerm term hterm
    subst hterm'
    have hne : toLowerCase (trim s.searchTerm) ≠ "" := by
      rw [Ne, hlower, trim_eq_empty_iff]
      exact hw
    simp only [searchEffect, hne, if_false]
    apply List.filter_congr
    intro u _
    by_cases hm : matchesSpec toLowerCase (trim s.searchTerm) u
    · simp [hm, (matchesSearch_iff toLowerCase (trim s.searchTerm) u).mpr hm]
    · have : matchesSearch toLowerCase (toLowerCase (trim s.searchTerm)) u = false := by
        cases hb : matchesSearch toLowerCase (toLowerCase (trim s.searchTerm)) u
        · rfl
        · exact absurd ((matchesSearch_iff toLowerCase (trim s.searchTerm) u).mp hb) hm
      simp [hm, this]
  · intro hw
    have he : toLowerCase (trim s.searchTerm) = "" := by
      rw [hlower, trim_eq_empty_iff]
      exact hw
    simp only [searchEffect, he, if_true]
  · intro hw u hn he hmem
    have hne : toLowerCase (trim s.searchTerm) ≠ "" := by
      rw [Ne, hlower, trim_eq_empty_iff]
      exact hw
    simp only [searchEffect, hne, if_false] at hmem
    have := (List.mem_filter.mp hmem).2
    rw [hnone u hn he] at this
    cases this

theorem asciiLower_eq_empty (t : String) : asciiLower t = "" ↔ t = "" := by
  unfold asciiLower
  constructor
  · intro h
    have hd : t.data.map Char.toLower = [] := congrArg String.data h
    rcases t with ⟨d⟩
    simp at hd
    simp [hd]
  · intro h
    subst h
    rfl

theorem monaSearch_trimmed : TrimmedFrom monaSearch.searchTerm "MON" :=
  ⟨[' ', ' '], [' '], rfl, by decide, by decide, by decide, by decide⟩

theorem searchEffect_filteredUsers_witness :
    ((∀ t : String, asciiLower t = "" ↔ t = "")
        ∧ TrimmedFrom monaSearch.searchTerm "MON"
        ∧ ¬ onlyWhiteSpace monaSearch.searchTerm ∧ onlyWhiteSpace blankSearch.searchTerm)
      ∧ (searchEffect asciiLower monaSearch).filteredUsers = [mona]
      ∧ (searchEffect asciiLower blankSearch).filteredUsers = sampleUsers :=
  ⟨⟨asciiLower_eq_empty, monaSearch_trimmed, by decide, by decide⟩,
    ((searchEffect_filteredUsers asciiLower monaSearch asciiLower_eq_empty).2.1 "MON"
      monaSearch_trimmed (by decide)).trans (by decide),
    (searchEffect_filteredUsers asciiLower blankSearch asciiLower_eq_empty).2.2.1 (by decide)⟩

theorem totalPages_eq (l : List UserRecord) : totalPages l = (l.length + 9) / 10 := by
  unfold totalPages usersPerPage
  apply le_antisymm
  · rw [Nat.ceil_le, div_le_iff₀ (by norm_num)]
    have h : l.length ≤ (l.length + 9) / 10 * 10 := by omega
    exact_mod_cast h
  · rcases Nat.eq_zero_or_pos ((l.length + 9) / 10) with h0 | hpos
    · rw [h0]; exact Nat.zero_le _
    · have hlt : (l.length + 9) / 10 - 1 < ⌈(l.length : ℚ) / ((10 : ℕ) : ℚ)⌉₊ := by
        rw [Nat.lt_ceil, lt_div_iff₀ (by norm_num)]
        have h : ((l.length + 9) / 10 - 1) * 10 < l.length := by omega
        exact_mod_cast h
      omega

/-- For a page number from `1` up, the slice is ten rows from `(p - 1) * 10`. -/
theorem currentUsers_eq (l : List UserRecord) (k : ℕ) :
    currentUsers l ((k : ℤ) + 1) = (l.drop (k * 10)).take 10 := by
  unfold currentUsers slice indexOfFirst indexOfLast usersPerPage
  have h1 : ¬ (((k : ℤ) + 1) * ((10 : ℕ) : ℤ) - ((10 : ℕ) : ℤ) < 0) := by push_cast; omega
  have h2 : ¬ (((k : ℤ) + 1) * ((10 : ℕ) : ℤ) < 0) := by push_cast; omega
  simp only [h1, h2, if_false]
  by_cases hk : k * 10 ≤ l.length
  · have e1 : (min (((k : ℤ) + 1) * ((10 : ℕ) : ℤ) - ((10 : ℕ) : ℤ)) (l.length : ℤ)).toNat = k * 10 := by
      push_cast; omega
    rw [e1, List.take_eq_take, List.length_drop]
    push_cast
    omega
  · have e1 : (min (((k : ℤ) + 1) * ((10 : ℕ) : ℤ) - ((10 : ℕ) : ℤ)) (l.length : ℤ)).toNat = l.length := by
      push_cast; omega
    rw [e1, List.drop_of_length_le (le_refl _), List.drop_of_length_le (by omega)]
    simp

theorem pages_flatMap (m : ℕ) (l : List UserRecord) (h : l.length ≤ m * 10) :
    (List.range m).flatMap (fun k => (l.drop (k * 10)).take 10) = l := by
  induction m generalizing l with
  | zero =>
    have : l = [] := List.eq_nil_of_length_eq_zero (by omega)
    subst this
    rfl
  | succ m ih =>
    rw [List.range_succ_eq_map, List.flatMap_cons, List.flatMap_map]
    have hstep : ∀ k : ℕ, (l.drop (Nat.succ k * 10)).take 10 = ((l.drop 10).drop (k * 10)).take 10 := by
      intro k
      rw [List.drop_drop]
      congr 2
      simp [Nat.succ_mul]; omega
    simp only [hstep]
    rw [ih (l.drop 10) (by rw [List.length_drop]; omega)]
    simp

theorem currentUsers_length (l : List UserRecord) (k : ℕ) :
    (currentUsers l ((k : ℤ) + 1)).length = min 10 (l.length - k * 10) := by
  rw [currentUsers_eq, List.length_take, List.length_drop]

theorem exists_page_index (p : ℤ) (hp : 1 ≤ p) : ∃ k : ℕ, p = (k : ℤ) + 1 :=
  ⟨(p - 1).toNat, by omega⟩

/-- C9: with `usersPerPage = 10` and `totalPages = ceil(n / 10)`, the pages
`currentUsers(p)` for `p = 1 .. totalPages`, put end to end in page order, are
the list `filteredUsers` itself; each of these pages is non-empty; each page
before the last has exactly 10 users; and the row number shown at index `i` of
page `p` is the 1-based position of that user in `filteredUsers`. -/
theorem pagination_partitions (filteredUsers : List UserRecord) :
    (List.range (totalPages filteredUsers)).flatMap
        (fun k => currentUsers filteredUsers ((k : ℤ) + 1)) = filteredUsers
      ∧ (∀ p : ℤ, 1 ≤ p → p ≤ totalPages filteredUsers → currentUsers filteredUsers p ≠ [])
      ∧ (∀ p : ℤ, 1 ≤ p → p < totalPages filteredUsers →
          (currentUsers filteredUsers p).length = 10)
      ∧ (∀ (p : ℤ) (i : ℕ), 1 ≤ p → i < (currentUsers filteredUsers p).length →
          1 ≤ rowNumber p i ∧ rowNumber p i ≤ filteredUsers.length
            ∧ filteredUsers[(rowNumber p i - 1).toNat]? = (currentUsers filteredUsers p)[i]?) := by
  have key := exists_page_index
  refine ⟨?_, ?_, ?_, ?_⟩
  · simp only [currentUsers_eq]
    exact pages_flatMap _ _ (by rw [totalPages_eq]; omega)
  · intro p hp hle
    obtain ⟨k, rfl⟩ := key p hp
    rw [totalPages_eq] at hle
    rw [currentUsers_eq]
    apply List.ne_nil_of_length_pos
    rw [List.length_take, List.length_drop]
    omega
  · intro p hp hlt
    obtain ⟨k, rfl⟩ := key p hp
    rw [totalPages_eq] at hlt
    rw [currentUsers_eq, List.length_take, List.length_drop]
    omega
  · intro p i hp hi
    obtain ⟨k, rfl⟩ := key p hp
    rw [currentUsers_eq] at hi ⊢
    rw [List.length_take, List.length_drop] at hi
    have hr : rowNumber ((k : ℤ) + 1) i = (k * 10 + i + 1 : ℕ) := by
      unfold rowNumber usersPerPage
      push_cast
      ring
    rw [hr]
    refine ⟨by omega, by omega, ?_⟩
    have hidx : (((k * 10 + i + 1 : ℕ) : ℤ) - 1).toNat = k * 10 + i := by omega
    rw [hidx, List.getElem?_take_of_lt (by omega), List.getElem?_drop]

theorem pagination_partitions_witness :
    ((1 : ℤ) ≤ 1 ∧ 0 < (currentUsers sampleUsers 1).length)
      ∧ (1 ≤ rowNumber 1 0 ∧ rowNumber 1 0 ≤ sampleUsers.length
          ∧ sampleUsers[(rowNumber 1 0 - 1).toNat]? = (currentUsers sampleUsers 1)[0]?) :=
  ⟨⟨by decide, by decide⟩,
    (pagination_partitions sampleUsers).2.2.2 1 0 (by decide) (by decide)⟩

theorem searchEffect_currentPage (toLowerCase : String → String) (s : PageState) :
    (searchEffect toLowerCase s).currentPage = 1 := rfl

theorem pageInRange_of_one (s : PageState) (h : s.currentPage = 1) : PageInRange s := by
  unfold PageInRange
  rw [h]
  exact ⟨le_refl _, le_max_left _ _⟩

theorem pageInRange_next (toLowerCase : String → String) (s s1 : PageState) (e : Event)
    (hs : PageInRange s) (hn : PageState.next toLowerCase s e = some s1) : PageInRange s1 := by
  cases e with
  | fetchDone docs =>
    simp only [PageState.next, Option.some.injEq] at hn
    subst hn
    exact pageInRange_of_one _ rfl
  | fetchFailed =>
    simp only [PageState.next, Option.some.injEq] at hn
    subst hn
    exact hs
  | searchInput value =>
    simp only [PageState.next] at hn
    split at hn
    · cases hn; exact hs
    · cases hn; exact pageInRange_of_one _ rfl
  | pageClick idx =>
    simp only [PageState.next] at hn
    split at hn
    · rename_i hc
      cases hn
      simp only [Bool.and_eq_true, decide_eq_true_eq] at hc
      unfold PageInRange
      simp only
      have h2 : idx < totalPages s.filteredUsers := hc.2
      constructor
      · omega
      · apply le_max_of_le_right
        exact_mod_cast h2
    · cases hn

theorem pageInRange_reachable (toLowerCase : String → String) (s : PageState)
    (h : Reachable toLowerCase s) : PageInRange s := by
  induction h with
  | initial => exact pageInRange_of_one _ rfl
  | next s s1 e _ hn ih => exact pageInRange_next toLowerCase s s1 e ih hn

theorem currentUsers_nil_of_inRange (s : PageState) (h : PageInRange s)
    (hnil : currentUsers s.filteredUsers s.currentPage = []) : s.filteredUsers = [] := by
  obtain ⟨h1, h2⟩ := h
  obtain ⟨k, hk⟩ := exists_page_index s.currentPage h1
  rw [hk] at hnil h2
  have hlen := currentUsers_length s.filteredUsers k
  rw [hnil, totalPages_eq] at *
  simp only [List.length_nil] at hlen
  apply List.eq_nil_of_length_eq_zero
  rcases le_max_iff.mp h2 with h | h
  · omega
  · have h3 : k + 1 ≤ (s.filteredUsers.length + 9) / 10 := by exact_mod_cast h
    omega

/-- C10: every change of the search term and every change of the users list
sets `currentPage` to `1`; and in every reachable state of the page (the initial
state, then any sequence of fetch completions, search edits and pagination
clicks) `1 ≤ currentPage ≤ max(1, totalPages)`, so that the displayed page is
empty only when `filteredUsers` is empty. -/
theorem currentPage_reset_and_range (toLowerCase : String → String) :
    (∀ (s s1 : PageState) (value : String), value ≠ s.searchTerm →
        PageState.next toLowerCase s (Event.searchInput value) = some s1 → s1.currentPage = 1)
      ∧ (∀ (s s1 : PageState) (docs : List UserRecord),
          PageState.next toLowerCase s (Event.fetchDone docs) = some s1 → s1.currentPage = 1)
      ∧ (∀ s : PageState, Reachable toLowerCase s →
          1 ≤ s.currentPage ∧ s.currentPage ≤ max 1 (totalPages s.filteredUsers : ℤ)
            ∧ (currentUsers s.filteredUsers s.currentPage = [] → s.filteredUsers = [])) := by
  refine ⟨?_, ?_, ?_⟩
  · intro s s1 value hv hn
    simp only [PageState.next, hv, if_false, Option.some.injEq] at hn
    subst hn
    rfl
  · intro s s1 docs hn
    simp only [PageState.next, Option.some.injEq] at hn
    subst hn
    rfl
  · intro s hr
    have h := pageInRange_reachable toLowerCase s hr
    exact ⟨h.1, h.2, currentUsers_nil_of_inRange s h⟩

theorem currentPage_reset_and_range_witness :
    Reachable asciiLower afterFetch
      ∧ (1 ≤ afterFetch.currentPage
          ∧ afterFetch.currentPage ≤ max 1 (totalPages afterFetch.filteredUsers : ℤ)
          ∧ (currentUsers afterFetch.filteredUsers afterFetch.currentPage = []
              → afterFetch.filteredUsers = [])) :=
  ⟨Reachable.next PageState.initial afterFetch (Event.fetchDone sampleUsers) Reachable.initial rfl,
    (currentPage_reset_and_range asciiLower).2.2 afterFetch
      (Reachable.next PageState.initial afterFetch (Event.fetchDone sampleUsers)
        Reachable.initial rfl)⟩

end UsersPage
